import Mathlib

/-!
Verification of the concurrent file-search engine (`searchConcurrent` and its
helper `processDir` in `main.go`) against its natural-language specification.

The filesystem is modelled as a tree of entries; the Go regexp collaborator is
modelled abstractly as a match predicate (the engine only calls `Compile`,
which may fail, and `MatchString`).  Pure parts of the engine (per-entry
classification, the collector switch, the stop condition) are translated
directly; the whole call is given both a sequential denotational semantics
(used for the counting / error-handling claims) and a small-step operational
semantics with an explicit scheduler (used for the concurrency claims).
-/

/-- SearchResult mirrors the Go struct: path of the found item, whether it is
a directory, and which matcher fired (the string "file", "dir" or "regex"). -/
structure SearchResult where
  Path : String
  IsDir : Bool
  Matched : String
deriving DecidableEq, Repr

/-- SearchStats mirrors the Go struct of running counters. -/
structure SearchStats where
  RegexMatches : Nat
  FilesFound : Nat
  DirsFound : Nat
deriving DecidableEq, Repr

/-- Model of the `regexPattern` argument together with the outcome of
`regexp.Compile`: an empty pattern (no regex requested), a pattern that
compiles to some match predicate, or a malformed pattern. -/
inductive RegexSpec where
  | noPattern : RegexSpec
  | valid (f : String → Bool) : RegexSpec
  | malformed : RegexSpec

/-- The request arguments of `searchConcurrent` (the root path is passed
separately, like in the source). -/
structure Request where
  fileName : String
  dirName : String
  regex : RegexSpec
  returnEarly : Bool
  suppresErrors : Bool
  maxWorkers : Nat

/-- A filesystem entry: a file, or a directory with a readability flag
(`os.ReadDir` fails on an unreadable directory and returns no entries). -/
inductive FSEntry where
  | file (name : String) : FSEntry
  | dir (name : String) (readable : Bool) (entries : List FSEntry) : FSEntry

/-- Name of an entry, as returned by `entry.Name()`. -/
def FSEntry.Name : FSEntry → String
  | .file n => n
  | .dir n _ _ => n

/-- Directory test, as returned by `entry.IsDir()`. -/
def FSEntry.isDir : FSEntry → Bool
  | .file _ => false
  | .dir _ _ _ => true

/-- Entries obtained by `os.ReadDir` on the entry: the listing of a readable
directory; nothing for a file or an unreadable directory. -/
def listing : FSEntry → List FSEntry
  | .file _ => []
  | .dir _ true es => es
  | .dir _ false _ => []

/-- Model of `filepath.Join(path, name)`. -/
def join (p n : String) : String := p ++ "/" ++ n

/-- The exact file-name criterion from `processDir`:
`fileName != "" && !entry.IsDir() && entry.Name() == fileName`. -/
def fileCrit (req : Request) (e : FSEntry) : Bool :=
  (req.fileName != "") && (!e.isDir) && (e.Name == req.fileName)

/-- The exact directory-name criterion from `processDir`:
`dirName != "" && entry.IsDir() && entry.Name() == dirName`. -/
def dirCrit (req : Request) (e : FSEntry) : Bool :=
  (req.dirName != "") && e.isDir && (e.Name == req.dirName)

/-- The regex criterion from `processDir`:
`re != nil && re.MatchString(entry.Name())`. -/
def rxCrit (req : Request) (e : FSEntry) : Bool :=
  match req.regex with
  | .valid f => f e.Name
  | _ => false

/-- The `matched`/`matchType` computation of `processDir` lines 78-97: three
successive `if` statements, each overwriting `matchType`, in the order
regex, dir, file.  `none` models `matched = false`. -/
def matchTypeOf (req : Request) (e : FSEntry) : Option String :=
  let m1 : Option String := if rxCrit req e then some "regex" else none
  let m2 : Option String := if dirCrit req e then some "dir" else m1
  if fileCrit req e then some "file" else m2

/-- The `SearchResult` sent for an entry, if any (`processDir` lines 99-114). -/
def classify (req : Request) (p : String) (e : FSEntry) : Option SearchResult :=
  (matchTypeOf req e).map (fun t => ⟨join p e.Name, e.isDir, t⟩)

/-- The collector state protected by `mu`: the two found-flags and the
statistics. -/
structure Core where
  fileFound : Bool
  dirFound : Bool
  stats : SearchStats
deriving DecidableEq, Repr

/-- Initial collector state: zero-valued named return values. -/
def Core.init : Core := ⟨false, false, ⟨0, 0, 0⟩⟩

/-- The collector switch on `result.Matched` (collector goroutine lines
148-169): flag and counter updates for each match kind. -/
def applyEvent (ev : SearchResult) (c : Core) : Core :=
  match ev.Matched with
  | "file" =>
      { c with fileFound := true,
               stats := { c.stats with FilesFound := c.stats.FilesFound + 1 } }
  | "dir" =>
      { c with dirFound := true,
               stats := { c.stats with DirsFound := c.stats.DirsFound + 1 } }
  | "regex" =>
      let c1 := { c with
        stats := { c.stats with RegexMatches := c.stats.RegexMatches + 1 } }
      if ev.IsDir then { c1 with dirFound := true } else { c1 with fileFound := true }
  | _ => c

/-- The stop condition computed by the collector (lines 179-188):
`shouldTerminate := returnEarly` refined by the nested `if` chain when
`returnEarly` is set. -/
def shouldTerminate (req : Request) (c : Core) : Bool :=
  if req.returnEarly then
    if (req.fileName != "") && (req.dirName != "") then c.fileFound && c.dirFound
    else if req.fileName != "" then c.fileFound
    else if req.dirName != "" then c.dirFound
    else true
  else false

/-- State threaded through the sequential denotational semantics: whether
`doneChan` has been closed, the collector state, and the error-log lines
emitted so far (each recorded as the path of the unreadable directory). -/
structure WState where
  done : Bool
  core : Core
  logs : List String
deriving DecidableEq, Repr

/-- One collector iteration in the sequential semantics: the event is
consumed, flags/counters are updated, and `doneChan` is closed if the stop
condition now holds. -/
def collProcess (req : Request) (ev : SearchResult) (s : WState) : WState :=
  let c := applyEvent ev s.core
  { s with core := c, done := s.done || shouldTerminate req c }

/-- Whether `os.ReadDir` succeeds on the entry: it fails on files and on
unreadable directories (and then returns no entries). -/
def readDirOk : FSEntry → Bool
  | .file _ => false
  | .dir _ r _ => r

/-- Sequential semantics of the entry loop of `processDir` running at path
`p`: per entry, the `doneChan` check, classification and emission (the event
is handed to the collector at the rendezvous), and for each subdirectory the
recursive `processDir` invocation — inlined: its `os.ReadDir` with the
error handling (log and abandon the subtree when errors are not
suppressed), then its own entry loop over the sub-listing.  The descent is
abandoned, as in the spawn `select`, when cancellation was signalled by the
event just emitted. -/
def processEntries (req : Request) (p : String) (es : List FSEntry) (s : WState) : WState :=
  match es with
  | [] => s
  | e :: rest =>
      if s.done then s
      else
        let s1 := match classify req p e with
          | some ev => collProcess req ev s
          | none => s
        if e.isDir then
          if s1.done then s1
          else
            let s2 :=
              if !readDirOk e && !req.suppresErrors then
                { s1 with logs := s1.logs ++ [join p e.Name] }
              else processEntries req (join p e.Name) (listing e) s1
            processEntries req p rest s2
        else processEntries req p rest s1
termination_by sizeOf es
decreasing_by
  all_goals first
    | (simp <;> omega)
    | (rcases e with n | ⟨n, r, es1⟩ <;> first
        | (simp [listing] <;> omega)
        | (cases r <;> simp [listing] <;> omega))

/-- One `processDir(path, ...)` invocation on entry `e` at path `p`: the
`os.ReadDir` with its error handling, then the entry loop. -/
def processDir (req : Request) (p : String) (e : FSEntry) (s : WState) : WState :=
  if !readDirOk e && !req.suppresErrors then { s with logs := s.logs ++ [p] }
  else processEntries req p (listing e) s

/-- Sequential denotational semantics of `searchConcurrent`: compile the
regex first (failing with the zero-valued named returns on a malformed
pattern), then walk from the root and return
`(fileFound, dirFound, stats, err)`. -/
def searchConcurrent (req : Request) (rootDir : String) (root : FSEntry) :
    Bool × Bool × SearchStats × Option String :=
  match req.regex with
  | .malformed => (false, false, ⟨0, 0, 0⟩, some "invalid regex pattern")
  | _ =>
      let s := processDir req rootDir root ⟨false, Core.init, []⟩
      (s.core.fileFound, s.core.dirFound, s.core.stats, none)

/-- The error-log lines produced by a call (the Go code writes them with
`log.Printf`; they are not part of the return value). -/
def searchLogs (req : Request) (rootDir : String) (root : FSEntry) : List String :=
  match req.regex with
  | .malformed => []
  | _ => (processDir req rootDir root ⟨false, Core.init, []⟩).logs

/-- Per-entry tag tests derived from the emitted event kind: an entry whose
event is tagged "file". -/
def isFileEvent (req : Request) (e : FSEntry) : Bool :=
  matchTypeOf req e == some "file"

/-- An entry whose event is tagged "dir". -/
def isDirEvent (req : Request) (e : FSEntry) : Bool :=
  matchTypeOf req e == some "dir"

/-- A non-directory entry whose event is tagged "regex" (such an event sets
`fileFound`). -/
def isRegexFileEvent (req : Request) (e : FSEntry) : Bool :=
  (matchTypeOf req e == some "regex") && !e.isDir

/-- A directory entry whose event is tagged "regex" (such an event sets
`dirFound`). -/
def isRegexDirEvent (req : Request) (e : FSEntry) : Bool :=
  (matchTypeOf req e == some "regex") && e.isDir

/-- Number of entries satisfying `pred` among a listing and everything the
walk lists below it (contents of unreadable directories are never listed). -/
def countList (pred : FSEntry → Bool) (es : List FSEntry) : Nat :=
  match es with
  | [] => 0
  | e :: rest =>
      ((if pred e then 1 else 0) +
        (match e with
         | .dir _ true es1 => countList pred es1
         | _ => 0)) + countList pred rest
termination_by sizeOf es
decreasing_by all_goals (simp_all <;> omega)

/-- Number of entries satisfying `pred` among those the walk lists strictly
below entry `e`. -/
def countInner (pred : FSEntry → Bool) (e : FSEntry) : Nat :=
  match e with
  | .dir _ true es => countList pred es
  | _ => 0

/-- Number of entries satisfying `pred` in a whole forest, contents of
unreadable directories included — the true number of filesystem entries. -/
def countAllList (pred : FSEntry → Bool) (es : List FSEntry) : Nat :=
  match es with
  | [] => 0
  | e :: rest =>
      ((if pred e then 1 else 0) +
        (match e with
         | .dir _ _ es1 => countAllList pred es1
         | _ => 0)) + countAllList pred rest
termination_by sizeOf es
decreasing_by all_goals (simp_all <;> omega)

/-- Every directory in the forest (and below it) is readable. -/
def allReadableList (es : List FSEntry) : Bool :=
  match es with
  | [] => true
  | e :: rest =>
      (match e with
       | .file _ => true
       | .dir _ r es1 => r && allReadableList es1) && allReadableList rest
termination_by sizeOf es
decreasing_by all_goals (simp_all <;> omega)

/-- Every directory in the subtree rooted at `e` (including `e`) is
readable. -/
def allReadable (e : FSEntry) : Bool :=
  match e with
  | .file _ => true
  | .dir _ r es => r && allReadableList es

/-- Error-log lines produced while walking a listing at path `p`: one line
(the path) per unreadable directory reached by the walk, none when error
suppression is on. -/
def logsList (req : Request) (p : String) (es : List FSEntry) : List String :=
  match es with
  | [] => []
  | e :: rest =>
      (if e.isDir then
         if !readDirOk e && !req.suppresErrors then [join p e.Name]
         else logsList req (join p e.Name) (listing e)
       else []) ++ logsList req p rest
termination_by sizeOf es
decreasing_by
  all_goals first
    | (simp <;> omega)
    | (rcases e with n | ⟨n, r, es1⟩ <;> first
        | (simp [listing] <;> omega)
        | (cases r <;> simp [listing] <;> omega))

/-- Error-log lines produced by one `processDir` invocation on entry `e` at
path `p` (the root invocation included). -/
def logsInner (req : Request) (p : String) (e : FSEntry) : List String :=
  if !readDirOk e && !req.suppresErrors then [p]
  else logsList req p (listing e)

/-- Some entry in the forest (or below it) would set `dirFound`: it
satisfies the directory-name criterion or is a directory matching the
regex. -/
def hasDirMatchList (req : Request) (es : List FSEntry) : Bool :=
  match es with
  | [] => false
  | e :: rest =>
      ((dirCrit req e || (rxCrit req e && e.isDir)) ||
        (match e with
         | .dir _ true es1 => hasDirMatchList req es1
         | _ => false)) || hasDirMatchList req rest
termination_by sizeOf es
decreasing_by all_goals (simp_all <;> omega)

/-- Some entry the walk lists strictly below `e` would set `dirFound`. -/
def hasDirMatchInner (req : Request) (e : FSEntry) : Bool :=
  match e with
  | .dir _ true es => hasDirMatchList req es
  | _ => false

/-- Listing of the root as the initial `os.ReadDir(rootDir)` sees it. -/
def rootEntries (root : FSEntry) : List FSEntry := listing root

/-- A dispatcher stack frame: one active `processDir` invocation — the path
it was called on and the entries still to iterate. -/
structure Frame where
  path : String
  rem : List FSEntry

/-- Control point of a dispatcher task: at the top of the entry loop,
blocked in the emission `select` (with the subdirectory still to handle once
the send succeeds), or at the spawn `select` for a subdirectory. -/
inductive PC where
  | top : PC
  | sending (ev : SearchResult) (sub : Option FSEntry) : PC
  | spawnsel (sub : FSEntry) : PC

/-- A dispatcher task: its stack of synchronous `processDir` invocations
(innermost first), its control point, and whether it holds a semaphore
token (tasks started with `go` after `semaphore <- struct{}{}` do; the root
task and synchronous invocations do not). -/
structure DTask where
  frames : List Frame
  pc : PC
  holdsToken : Bool

/-- Control point of the collector goroutine: blocked receiving on
`resultChan`, holding a received event whose switch body has not run yet,
or terminated because the channel was closed. -/
inductive CollCtl where
  | waiting : CollCtl
  | has (ev : SearchResult) : CollCtl
  | finished : CollCtl

/-- Global state of one `searchConcurrent` call: the dispatcher tasks, the
`doneChan` flag, the `resultChan` closed flag, the collector, the shared
variables guarded by `mu`, the value returned to the caller (once the final
`return` runs), and whether the program panicked. -/
structure Sys where
  tasks : List DTask
  done : Bool
  resClosed : Bool
  coll : CollCtl
  core : Core
  rv : Option (Bool × Bool × SearchStats)
  panicked : Bool

/-- Number of semaphore tokens currently held. -/
def tokens (ts : List DTask) : Nat := (ts.filter (fun t => t.holdsToken)).length

/-- Control point after the body of one entry iteration up to the emission:
classification decides whether the task next blocks on the send (keeping
the subdirectory for afterwards) or goes straight to the spawn `select` or
the next iteration. -/
def afterEntry (req : Request) (p : String) (e : FSEntry) : PC :=
  match classify req p e with
  | some ev => .sending ev (if e.isDir then some e else none)
  | none => if e.isDir then .spawnsel e else .top

/-- Task list after a `return` from the current `processDir` invocation:
the frame is popped; if it was the last one the task is gone (and its
token, if any, is released by the deferred semaphore read). -/
def afterPop (pre : List DTask) (fs : List Frame) (tok : Bool) (post : List DTask) : List DTask :=
  match fs with
  | [] => pre ++ post
  | _ => pre ++ ⟨fs, .top, tok⟩ :: post

/-- Small-step transitions of one `searchConcurrent` call.  Each constructor
is one atomic action of a goroutine; overlapping enabling conditions encode
the nondeterministic choice Go makes among ready `select` cases. -/
inductive Step (req : Request) : Sys → Sys → Prop where
  /-- Entry-loop iteration while `doneChan` is open: the done-check falls
  through, the entry is classified and the task moves to the send, the spawn
  `select`, or the next iteration. -/
  | advance (pre post : List DTask) (p : String) (e : FSEntry) (rem : List FSEntry)
      (fs : List Frame) (tok : Bool) (rc : Bool) (cl : CollCtl) (c : Core)
      (rv : Option (Bool × Bool × SearchStats)) :
      Step req ⟨pre ++ ⟨⟨p, e :: rem⟩ :: fs, .top, tok⟩ :: post, false, rc, cl, c, rv, false⟩
               ⟨pre ++ ⟨⟨p, rem⟩ :: fs, afterEntry req p e, tok⟩ :: post, false, rc, cl, c, rv, false⟩
  /-- Entry-loop iteration after `doneChan` was closed: the done-check
  `select` returns from the invocation. -/
  | doneSkip (pre post : List DTask) (p : String) (e : FSEntry) (rem : List FSEntry)
      (fs : List Frame) (tok : Bool) (rc : Bool) (cl : CollCtl) (c : Core)
      (rv : Option (Bool × Bool × SearchStats)) :
      Step req ⟨pre ++ ⟨⟨p, e :: rem⟩ :: fs, .top, tok⟩ :: post, true, rc, cl, c, rv, false⟩
               ⟨afterPop pre fs tok post, true, rc, cl, c, rv, false⟩
  /-- The entry loop ran out of entries: the invocation returns. -/
  | frameDone (pre post : List DTask) (p : String) (fs : List Frame) (tok : Bool) (d rc : Bool)
      (cl : CollCtl) (c : Core) (rv : Option (Bool × Bool × SearchStats)) :
      Step req ⟨pre ++ ⟨⟨p, []⟩ :: fs, .top, tok⟩ :: post, d, rc, cl, c, rv, false⟩
               ⟨afterPop pre fs tok post, d, rc, cl, c, rv, false⟩
  /-- The emission rendezvous: the collector is at its receive, the send case
  of the `select` fires (it may fire even when `doneChan` is already closed —
  Go picks among ready cases), and the task proceeds to the subdirectory
  handling or the next iteration. -/
  | rendezvous (pre post : List DTask) (ev : SearchResult) (sub : Option FSEntry)
      (fs : List Frame) (tok : Bool) (d rc : Bool) (c : Core)
      (rv : Option (Bool × Bool × SearchStats)) :
      Step req ⟨pre ++ ⟨fs, .sending ev sub, tok⟩ :: post, d, rc, .waiting, c, rv, false⟩
               ⟨pre ++ ⟨fs, (match sub with | some s => PC.spawnsel s | none => PC.top), tok⟩ :: post,
                d, rc, .has ev, c, rv, false⟩
  /-- The emission `select` observes the closed `doneChan` and the invocation
  returns without delivering the event. -/
  | sendAbandon (pre post : List DTask) (ev : SearchResult) (sub : Option FSEntry)
      (p : String) (rem : List FSEntry) (fs : List Frame) (tok : Bool) (rc : Bool)
      (cl : CollCtl) (c : Core) (rv : Option (Bool × Bool × SearchStats)) :
      Step req ⟨pre ++ ⟨⟨p, rem⟩ :: fs, .sending ev sub, tok⟩ :: post, true, rc, cl, c, rv, false⟩
               ⟨afterPop pre fs tok post, true, rc, cl, c, rv, false⟩
  /-- A semaphore token is available: the subdirectory is handed to a new
  concurrent task holding the token (the new task has already done its
  `os.ReadDir`). -/
  | spawnGo (pre post : List DTask) (p : String) (rem : List FSEntry) (sub : FSEntry)
      (fs : List Frame) (tok : Bool) (d rc : Bool) (cl : CollCtl) (c : Core)
      (rv : Option (Bool × Bool × SearchStats))
      (hcap : tokens (pre ++ ⟨⟨p, rem⟩ :: fs, .spawnsel sub, tok⟩ :: post) < req.maxWorkers) :
      Step req ⟨pre ++ ⟨⟨p, rem⟩ :: fs, .spawnsel sub, tok⟩ :: post, d, rc, cl, c, rv, false⟩
               ⟨(pre ++ ⟨⟨p, rem⟩ :: fs, .top, tok⟩ :: post)
                  ++ [⟨[⟨join p sub.Name, listing sub⟩], .top, true⟩], d, rc, cl, c, rv, false⟩
  /-- The semaphore is at capacity and `doneChan` is open: only the `default`
  case is ready, so the subdirectory is processed synchronously in the
  current task (a new stack frame). -/
  | spawnSync (pre post : List DTask) (p : String) (rem : List FSEntry) (sub : FSEntry)
      (fs : List Frame) (tok : Bool) (rc : Bool) (cl : CollCtl) (c : Core)
      (rv : Option (Bool × Bool × SearchStats))
      (hcap : req.maxWorkers ≤ tokens (pre ++ ⟨⟨p, rem⟩ :: fs, .spawnsel sub, tok⟩ :: post)) :
      Step req ⟨pre ++ ⟨⟨p, rem⟩ :: fs, .spawnsel sub, tok⟩ :: post, false, rc, cl, c, rv, false⟩
               ⟨pre ++ ⟨⟨join p sub.Name, listing sub⟩ :: ⟨p, rem⟩ :: fs, .top, tok⟩ :: post,
                false, rc, cl, c, rv, false⟩
  /-- The spawn `select` observes the closed `doneChan`: the child is given
  up (`wg.Done()`) and the invocation returns. -/
  | spawnAbandon (pre post : List DTask) (sub : FSEntry) (p : String) (rem : List FSEntry)
      (fs : List Frame) (tok : Bool) (rc : Bool) (cl : CollCtl) (c : Core)
      (rv : Option (Bool × Bool × SearchStats)) :
      Step req ⟨pre ++ ⟨⟨p, rem⟩ :: fs, .spawnsel sub, tok⟩ :: post, true, rc, cl, c, rv, false⟩
               ⟨afterPop pre fs tok post, true, rc, cl, c, rv, false⟩
  /-- The collector runs the switch body for the received event and the stop
  condition does not fire: flags and counters are updated under `mu`. -/
  | collProcessNoStop (ts : List DTask) (ev : SearchResult) (d rc : Bool) (c : Core)
      (rv : Option (Bool × Bool × SearchStats))
      (hst : shouldTerminate req (applyEvent ev c) = false) :
      Step req ⟨ts, d, rc, .has ev, c, rv, false⟩
               ⟨ts, d, rc, .waiting, applyEvent ev c, rv, false⟩
  /-- The collector runs the switch body, the stop condition fires and
  `doneChan` is still open: it is closed (the one legal broadcast). -/
  | collProcessStop (ts : List DTask) (ev : SearchResult) (rc : Bool) (c : Core)
      (rv : Option (Bool × Bool × SearchStats))
      (hst : shouldTerminate req (applyEvent ev c) = true) :
      Step req ⟨ts, false, rc, .has ev, c, rv, false⟩
               ⟨ts, true, rc, .waiting, applyEvent ev c, rv, false⟩
  /-- The collector runs the switch body, the stop condition fires but
  `doneChan` is already closed: `close(doneChan)` panics (close of a closed
  channel). -/
  | collPanic (ts : List DTask) (ev : SearchResult) (rc : Bool) (c : Core)
      (rv : Option (Bool × Bool × SearchStats))
      (hst : shouldTerminate req (applyEvent ev c) = true) :
      Step req ⟨ts, true, rc, .has ev, c, rv, false⟩
               ⟨ts, true, rc, .has ev, applyEvent ev c, rv, true⟩
  /-- `wg.Wait()` returns (no dispatcher invocation is outstanding) and the
  main goroutine closes `resultChan`. -/
  | mainClose (d : Bool) (cl : CollCtl) (c : Core) (rv : Option (Bool × Bool × SearchStats)) :
      Step req ⟨[], d, false, cl, c, rv, false⟩
               ⟨[], d, true, cl, c, rv, false⟩
  /-- The final `return fileFound, dirFound, stats, nil` of the main
  goroutine: it runs right after the close, whether or not the collector has
  finished its last switch body. -/
  | mainReturn (d : Bool) (cl : CollCtl) (c : Core) :
      Step req ⟨[], d, true, cl, c, none, false⟩
               ⟨[], d, true, cl, c, some (c.fileFound, c.dirFound, c.stats), false⟩
  /-- The collector observes the closed and drained `resultChan` and its
  range loop ends. -/
  | collFinish (d : Bool) (c : Core) (rv : Option (Bool × Bool × SearchStats)) :
      Step req ⟨[], d, true, .waiting, c, rv, false⟩
               ⟨[], d, true, .finished, c, rv, false⟩

/-- Initial state of a call: the root task (no token), `doneChan` open,
`resultChan` open, the collector at its receive, zero-valued shared state. -/
def initSys (rootDir : String) (root : FSEntry) : Sys :=
  ⟨[⟨[⟨rootDir, listing root⟩], .top, false⟩], false, false, .waiting, Core.init, none, false⟩

/-- Reachability in the small-step semantics. -/
def Reach (req : Request) : Sys → Sys → Prop :=
  Relation.ReflTransGen (Step req)

/-- An entry whose event is tagged "regex" (either flag may be set,
depending on `IsDir`). -/
def isRegexEvent (req : Request) (e : FSEntry) : Bool :=
  matchTypeOf req e == some "regex"

/-- Some entry in the forest (or below it) would set `fileFound`: it
satisfies the file-name criterion or is a non-directory matching the
regex. -/
def hasFileMatchList (req : Request) (es : List FSEntry) : Bool :=
  match es with
  | [] => false
  | e :: rest =>
      ((fileCrit req e || (rxCrit req e && !e.isDir)) ||
        (match e with
         | .dir _ true es1 => hasFileMatchList req es1
         | _ => false)) || hasFileMatchList req rest
termination_by sizeOf es
decreasing_by all_goals (simp_all <;> omega)

/-- Some entry the walk lists strictly below `e` would set `fileFound`. -/
def hasFileMatchInner (req : Request) (e : FSEntry) : Bool :=
  match e with
  | .dir _ true es => hasFileMatchList req es
  | _ => false

/-- Event-kind test on an emitted `SearchResult`, mirroring the collector
switch: an event whose case increments `FilesFound`. -/
def fileEvRes (ev : SearchResult) : Bool := ev.Matched == "file"

/-- An event whose collector case increments `DirsFound`. -/
def dirEvRes (ev : SearchResult) : Bool := ev.Matched == "dir"

/-- An event whose collector case increments `RegexMatches` and sets
`fileFound` (a regex event for a non-directory). -/
def regexFileEvRes (ev : SearchResult) : Bool := (ev.Matched == "regex") && !ev.IsDir

/-- An event whose collector case increments `RegexMatches` and sets
`dirFound` (a regex event for a directory). -/
def regexDirEvRes (ev : SearchResult) : Bool := (ev.Matched == "regex") && ev.IsDir

/-- Events of kind `evP`/`enP` a task at the given control point will still
hand to the collector: an event held at the emission `select` counts once,
and a subdirectory waiting at the spawn `select` (or kept for after the
send) contributes everything listable below it. -/
def pcFuture (evP : SearchResult → Bool) (enP : FSEntry → Bool) : PC → Nat
  | .top => 0
  | .sending ev sub =>
      (if evP ev then 1 else 0) +
        (match sub with
         | some e => countList enP (listing e)
         | none => 0)
  | .spawnsel sub => countList enP (listing sub)

/-- Events still to be emitted from the entries a frame has not iterated. -/
def frameFuture (enP : FSEntry → Bool) (fr : Frame) : Nat :=
  countList enP fr.rem

/-- Events one dispatcher task will still hand to the collector. -/
def taskFuture (evP : SearchResult → Bool) (enP : FSEntry → Bool) (t : DTask) : Nat :=
  (t.frames.map (frameFuture enP)).sum + pcFuture evP enP t.pc

/-- Events all dispatcher tasks together will still hand to the collector. -/
def tasksFuture (evP : SearchResult → Bool) (enP : FSEntry → Bool) (ts : List DTask) : Nat :=
  (ts.map (taskFuture evP enP)).sum

/-- An event received by the collector whose switch body has not run yet. -/
def collFuture (evP : SearchResult → Bool) : CollCtl → Nat
  | .has ev => if evP ev then 1 else 0
  | _ => 0

/-- Events of one kind not yet consumed by a collector switch body anywhere
in the system: pending in the dispatcher tasks or held by the collector. -/
def sysFuture (evP : SearchResult → Bool) (enP : FSEntry → Bool) (σ : Sys) : Nat :=
  tasksFuture evP enP σ.tasks + collFuture evP σ.coll

/-- Conservation invariant of a `returnEarly=false` run: `doneChan` stays
open, no panic occurs, and for each event kind the events already consumed
by the collector (visible in the shared counters) plus the events still
pending add up to the total listable count of that kind under the root —
with the flags set exactly when some event of a flag-setting kind has been
consumed. -/
def DrainInv (req : Request) (root : FSEntry) (σ : Sys) : Prop :=
  σ.done = false ∧ σ.panicked = false ∧
  σ.core.stats.FilesFound + sysFuture fileEvRes (isFileEvent req) σ
      = countList (isFileEvent req) (listing root) ∧
  σ.core.stats.DirsFound + sysFuture dirEvRes (isDirEvent req) σ
      = countList (isDirEvent req) (listing root) ∧
  sysFuture regexFileEvRes (isRegexFileEvent req) σ
      ≤ countList (isRegexFileEvent req) (listing root) ∧
  sysFuture regexDirEvRes (isRegexDirEvent req) σ
      ≤ countList (isRegexDirEvent req) (listing root) ∧
  σ.core.stats.RegexMatches + sysFuture regexFileEvRes (isRegexFileEvent req) σ
        + sysFuture regexDirEvRes (isRegexDirEvent req) σ
      = countList (isRegexFileEvent req) (listing root)
        + countList (isRegexDirEvent req) (listing root) ∧
  σ.core.fileFound
      = decide (0 < (countList (isFileEvent req) (listing root)
            - sysFuture fileEvRes (isFileEvent req) σ)
          + (countList (isRegexFileEvent req) (listing root)
            - sysFuture regexFileEvRes (isRegexFileEvent req) σ)) ∧
  σ.core.dirFound
      = decide (0 < (countList (isDirEvent req) (listing root)
            - sysFuture dirEvRes (isDirEvent req) σ)
          + (countList (isRegexDirEvent req) (listing root)
            - sysFuture regexDirEvRes (isRegexDirEvent req) σ))

/-- The file-name criterion only holds for non-directories. -/
theorem fileCrit_isDir {req : Request} {e : FSEntry} (h : fileCrit req e = true) :
    e.isDir = false := by
  unfold fileCrit at h
  rcases e with _ | _ <;> simp_all [FSEntry.isDir]

/-- The directory-name criterion only holds for directories. -/
theorem dirCrit_isDir {req : Request} {e : FSEntry} (h : dirCrit req e = true) :
    e.isDir = true := by
  unfold dirCrit at h
  rcases e with _ | _ <;> simp_all [FSEntry.isDir]

/-- With `returnEarly` unset the collector never closes `doneChan`. -/
theorem shouldTerminate_of_not_returnEarly {req : Request} (h : req.returnEarly = false)
    (c : Core) : shouldTerminate req c = false := by
  simp [shouldTerminate, h]

/-- C3: when returnEarly=true, the collector's stop condition after
processing an event is: both flags if both a file and a directory name were
requested; fileFound if only a file name; dirFound if only a directory
name; and with neither requested (regex-only) the collector stops on the
very first event of any kind. -/
theorem collector_stop_condition (req : Request) (ev : SearchResult) (s : WState)
    (hre : req.returnEarly = true) (hd : s.done = false) :
    (req.fileName ≠ "" → req.dirName ≠ "" →
      (collProcess req ev s).done
        = ((collProcess req ev s).core.fileFound && (collProcess req ev s).core.dirFound)) ∧
    (req.fileName ≠ "" → req.dirName = "" →
      (collProcess req ev s).done = (collProcess req ev s).core.fileFound) ∧
    (req.fileName = "" → req.dirName ≠ "" →
      (collProcess req ev s).done = (collProcess req ev s).core.dirFound) ∧
    (req.fileName = "" → req.dirName = "" → (collProcess req ev s).done = true) := by
  refine ⟨?_, ?_, ?_, ?_⟩ <;> intro h1 h2 <;>
    simp [collProcess, shouldTerminate, hre, hd, h1, h2]

/-- Witness for `collector_stop_condition` at a concrete request, event and
state (regex-only request: the first event stops the search). -/
theorem collector_stop_condition_witness :
    let req : Request := ⟨"", "", .noPattern, true, false, 1⟩
    let ev : SearchResult := ⟨"r/x", false, "regex"⟩
    let s : WState := ⟨false, Core.init, []⟩
    ("" ≠ "" → "" ≠ "" →
      (collProcess req ev s).done
        = ((collProcess req ev s).core.fileFound && (collProcess req ev s).core.dirFound)) ∧
    ("" ≠ "" → "" = "" →
      (collProcess req ev s).done = (collProcess req ev s).core.fileFound) ∧
    ("" = "" → "" ≠ "" →
      (collProcess req ev s).done = (collProcess req ev s).core.dirFound) ∧
    ("" = "" → "" = "" → (collProcess req ev s).done = true) :=
  collector_stop_condition ⟨"", "", .noPattern, true, false, 1⟩ ⟨"r/x", false, "regex"⟩
    ⟨false, Core.init, []⟩ rfl rfl

/-- C2 counterexample: an entry satisfying both the regex and the exact
file-name kind yields one single event tagged "file" — not one event per
satisfied kind with the regex event first, as the claim states. -/
theorem entry_two_kinds_one_event :
    let req : Request := ⟨"a.txt", "", .valid (fun s => s == "a.txt"), false, false, 1⟩
    rxCrit req (.file "a.txt") = true ∧ fileCrit req (.file "a.txt") = true ∧
    classify req "r" (.file "a.txt") = some ⟨"r/a.txt", false, "file"⟩ := by
  exact ⟨rfl, rfl, rfl⟩

/-- C2 amended: the dispatcher emits at most one event per entry; when
several kinds are satisfied the single event carries the last-written tag,
i.e. precedence file over dir over regex, and processing that event
increments exactly one of the three counters (one event per entry, not one
per satisfied kind). -/
theorem entry_event_precedence (req : Request) (p : String) (e : FSEntry) :
    (classify req p e =
      if fileCrit req e then some ⟨join p e.Name, e.isDir, "file"⟩
      else if dirCrit req e then some ⟨join p e.Name, e.isDir, "dir"⟩
      else if rxCrit req e then some ⟨join p e.Name, e.isDir, "regex"⟩
      else none) ∧
    (∀ ev c, classify req p e = some ev →
      (applyEvent ev c).stats.RegexMatches + (applyEvent ev c).stats.FilesFound
          + (applyEvent ev c).stats.DirsFound
        = (c.stats.RegexMatches + c.stats.FilesFound + c.stats.DirsFound) + 1) := by
  constructor
  · unfold classify matchTypeOf
    by_cases hf : fileCrit req e <;> by_cases hdc : dirCrit req e <;>
      by_cases hr : rxCrit req e <;> simp [hf, hdc, hr]
  · intro ev c hev
    have hm : ev.Matched = "file" ∨ ev.Matched = "dir" ∨ ev.Matched = "regex" := by
      unfold classify matchTypeOf at hev
      by_cases hf : fileCrit req e <;> by_cases hdc : dirCrit req e <;>
        by_cases hr : rxCrit req e <;> simp [hf, hdc, hr] at hev <;> simp [← hev]
    rcases hm with hm | hm | hm
    · simp [applyEvent, hm] <;> omega
    · simp [applyEvent, hm] <;> omega
    · by_cases hid : ev.IsDir <;> simp [applyEvent, hm, hid] <;> omega

/-- C9: on a malformed regex pattern the call fails atomically — both flags
false, all counters zero, and the error, whatever the tree looks like. -/
theorem malformed_regex_atomic_failure (req : Request) (rootDir : String) (root : FSEntry)
    (h : req.regex = RegexSpec.malformed) :
    searchConcurrent req rootDir root = (false, false, ⟨0, 0, 0⟩, some "invalid regex pattern") := by
  unfold searchConcurrent
  rw [h]

/-- Witness for `malformed_regex_atomic_failure` on a concrete request and
tree holding matches that are consequently never reported. -/
theorem malformed_regex_atomic_failure_witness :
    searchConcurrent ⟨"t", "", .malformed, false, false, 1⟩ "r" (.dir "r" true [.file "t"])
      = (false, false, ⟨0, 0, 0⟩, some "invalid regex pattern") :=
  malformed_regex_atomic_failure ⟨"t", "", .malformed, false, false, 1⟩ "r"
    (.dir "r" true [.file "t"]) rfl

/-- The event is tagged "file" exactly when the file-name criterion holds
(the file check is the last one, so it always wins). -/
theorem isFileEvent_eq (req : Request) (e : FSEntry) :
    isFileEvent req e = fileCrit req e := by
  by_cases hf : fileCrit req e <;>
    by_cases hdc : dirCrit req e <;>
    by_cases hr : rxCrit req e <;>
    simp [isFileEvent, matchTypeOf, hf, hdc, hr]

/-- The event is tagged "dir" exactly when the directory-name criterion
holds (the file check cannot fire on a directory). -/
theorem isDirEvent_eq (req : Request) (e : FSEntry) :
    isDirEvent req e = dirCrit req e := by
  by_cases hf : fileCrit req e
  · have := fileCrit_isDir hf
    have hdc : dirCrit req e = false := by simp [dirCrit, this]
    simp [isDirEvent, matchTypeOf, hf, hdc]
  · by_cases hdc : dirCrit req e <;> by_cases hr : rxCrit req e <;>
      simp [isDirEvent, matchTypeOf, hf, hdc, hr]

/-- The event is tagged "regex" exactly when the regex matches and neither
exact-name criterion fires (those checks overwrite the tag). -/
theorem isRegexEvent_eq (req : Request) (e : FSEntry) :
    isRegexEvent req e = (rxCrit req e && !dirCrit req e && !fileCrit req e) := by
  by_cases hf : fileCrit req e <;>
    by_cases hdc : dirCrit req e <;>
    by_cases hr : rxCrit req e <;>
    simp [isRegexEvent, matchTypeOf, hf, hdc, hr]

/-- Unfolding lemma: `countList` on an empty listing. -/
theorem countList_nil (pred : FSEntry → Bool) : countList pred [] = 0 := by
  rw [countList.eq_def]

/-- Unfolding lemma: `countList` on a listing head counts the head, its
listable subtree and the tail. -/
theorem countList_cons (pred : FSEntry → Bool) (e : FSEntry) (rest : List FSEntry) :
    countList pred (e :: rest)
      = ((if pred e then 1 else 0) + countInner pred e) + countList pred rest := by
  rw [countList.eq_def]
  rfl

/-- Unfolding lemma: `hasFileMatchList` on an empty listing. -/
theorem hasFileMatchList_nil (req : Request) : hasFileMatchList req [] = false := by
  rw [hasFileMatchList.eq_def]

/-- Unfolding lemma: `hasFileMatchList` on a listing head. -/
theorem hasFileMatchList_cons (req : Request) (e : FSEntry) (rest : List FSEntry) :
    hasFileMatchList req (e :: rest)
      = (((fileCrit req e || (rxCrit req e && !e.isDir)) || hasFileMatchInner req e)
          || hasFileMatchList req rest) := by
  rw [hasFileMatchList.eq_def]
  rfl

/-- Unfolding lemma: `hasDirMatchList` on an empty listing. -/
theorem hasDirMatchList_nil (req : Request) : hasDirMatchList req [] = false := by
  rw [hasDirMatchList.eq_def]

/-- Unfolding lemma: `hasDirMatchList` on a listing head. -/
theorem hasDirMatchList_cons (req : Request) (e : FSEntry) (rest : List FSEntry) :
    hasDirMatchList req (e :: rest)
      = (((dirCrit req e || (rxCrit req e && e.isDir)) || hasDirMatchInner req e)
          || hasDirMatchList req rest) := by
  rw [hasDirMatchList.eq_def]
  rfl

/-- Unfolding lemma: `logsList` on an empty listing. -/
theorem logsList_nil (req : Request) (p : String) : logsList req p [] = [] := by
  rw [logsList.eq_def]

/-- Unfolding lemma: `logsList` on a listing head. -/
theorem logsList_cons (req : Request) (p : String) (e : FSEntry) (rest : List FSEntry) :
    logsList req p (e :: rest)
      = (if e.isDir then logsInner req (join p e.Name) e else []) ++ logsList req p rest := by
  rw [logsList.eq_def]
  rfl

/-- Exhaustiveness of the entry loop when `returnEarly` is unset: the final
state adds to the incoming one exactly the per-kind event counts of what the
loop can list, sets the flags accordingly, and appends one error-log line
per unreadable directory reached. -/
theorem processEntries_char (req : Request) (hre : req.returnEarly = false) (p : String)
    (es : List FSEntry) (s : WState) (hd : s.done = false) :
    processEntries req p es s =
      ⟨false,
       ⟨s.core.fileFound || hasFileMatchList req es,
        s.core.dirFound || hasDirMatchList req es,
        ⟨s.core.stats.RegexMatches + countList (isRegexEvent req) es,
         s.core.stats.FilesFound + countList (isFileEvent req) es,
         s.core.stats.DirsFound + countList (isDirEvent req) es⟩⟩,
       s.logs ++ logsList req p es⟩ := by
  cases es with
  | nil =>
      rcases s with ⟨d, ⟨ff, df, ⟨a, b, c⟩⟩, lg⟩
      simp only [WState.done] at hd
      subst hd
      rw [show processEntries req p [] ⟨false, ⟨ff, df, ⟨a, b, c⟩⟩, lg⟩
            = ⟨false, ⟨ff, df, ⟨a, b, c⟩⟩, lg⟩ by rw [processEntries.eq_def]]
      simp [hasFileMatchList_nil, hasDirMatchList_nil, countList_nil, logsList_nil]
  | cons e rest =>
      cases e with
      | file n =>
          have hdc : dirCrit req (.file n) = false := by simp [dirCrit, FSEntry.isDir]
          by_cases hf : fileCrit req (.file n)
          · have hmt : matchTypeOf req (.file n) = some "file" := by simp [matchTypeOf, hf]
            have hd1 : (collProcess req ⟨join p n, false, "file"⟩ s).done = false := by
              simp [collProcess, hd, shouldTerminate_of_not_returnEarly hre]
            rw [show processEntries req p (.file n :: rest) s
                  = processEntries req p rest (collProcess req ⟨join p n, false, "file"⟩ s) by
                rw [processEntries.eq_def]
                simp [hd, classify, hmt, FSEntry.isDir, FSEntry.Name]]
            rw [processEntries_char req hre p rest _ hd1]
            simp [collProcess, applyEvent, hd, shouldTerminate_of_not_returnEarly hre,
              hasFileMatchList_cons, hasDirMatchList_cons, countList_cons, logsList_cons,
              hasFileMatchInner, hasDirMatchInner, countInner, logsInner,
              isFileEvent, isDirEvent, isRegexEvent, hmt, hf, hdc, FSEntry.isDir,
              Bool.or_assoc, Nat.add_assoc]
          · by_cases hr : rxCrit req (.file n)
            · have hmt : matchTypeOf req (.file n) = some "regex" := by
                simp [matchTypeOf, hf, hdc, hr]
              have hd1 : (collProcess req ⟨join p n, false, "regex"⟩ s).done = false := by
                simp [collProcess, hd, shouldTerminate_of_not_returnEarly hre]
              rw [show processEntries req p (.file n :: rest) s
                    = processEntries req p rest (collProcess req ⟨join p n, false, "regex"⟩ s) by
                  rw [processEntries.eq_def]
                  simp [hd, classify, hmt, FSEntry.isDir, FSEntry.Name]]
              rw [processEntries_char req hre p rest _ hd1]
              simp [collProcess, applyEvent, hd, shouldTerminate_of_not_returnEarly hre,
                hasFileMatchList_cons, hasDirMatchList_cons, countList_cons, logsList_cons,
                hasFileMatchInner, hasDirMatchInner, countInner, logsInner,
                isFileEvent, isDirEvent, isRegexEvent, hmt, hf, hdc, hr, FSEntry.isDir,
                Bool.or_assoc, Nat.add_assoc]
            · have hmt : matchTypeOf req (.file n) = none := by simp [matchTypeOf, hf, hdc, hr]
              rw [show processEntries req p (.file n :: rest) s = processEntries req p rest s by
                  rw [processEntries.eq_def]
                  simp [hd, classify, hmt, FSEntry.isDir]]
              rw [processEntries_char req hre p rest s hd]
              simp [hasFileMatchList_cons, hasDirMatchList_cons, countList_cons, logsList_cons,
                hasFileMatchInner, hasDirMatchInner, countInner, logsInner,
                isFileEvent, isDirEvent, isRegexEvent, hmt, hf, hdc, hr, FSEntry.isDir,
                Bool.or_assoc, Nat.add_assoc]
      | dir n r es1 =>
          have hf : fileCrit req (.dir n r es1) = false := by simp [fileCrit, FSEntry.isDir]
          have hdesc : ∀ s1 : WState, s1.done = false →
              (if !readDirOk (.dir n r es1) && !req.suppresErrors then
                  { s1 with logs := s1.logs ++ [join p n] }
                else processEntries req (join p n) (listing (.dir n r es1)) s1) =
              ⟨false,
               ⟨s1.core.fileFound || hasFileMatchInner req (.dir n r es1),
                s1.core.dirFound || hasDirMatchInner req (.dir n r es1),
                ⟨s1.core.stats.RegexMatches + countInner (isRegexEvent req) (.dir n r es1),
                 s1.core.stats.FilesFound + countInner (isFileEvent req) (.dir n r es1),
                 s1.core.stats.DirsFound + countInner (isDirEvent req) (.dir n r es1)⟩⟩,
               s1.logs ++ logsInner req (join p n) (.dir n r es1)⟩ := by
            intro s1 hd1
            cases r with
            | true =>
                rw [show listing (.dir n true es1) = es1 from rfl]
                rw [show (!readDirOk (.dir n true es1) && !req.suppresErrors) = false by
                      simp [readDirOk]]
                simp only [Bool.false_eq_true, if_false]
                rw [processEntries_char req hre (join p n) es1 s1 hd1]
                simp [hasFileMatchInner, hasDirMatchInner, countInner, logsInner, readDirOk,
                  listing]
            | false =>
                by_cases hsup : req.suppresErrors
                · rw [show (!readDirOk (.dir n false es1) && !req.suppresErrors) = false by
                        simp [readDirOk, hsup]]
                  simp only [Bool.false_eq_true, if_false]
                  rw [show listing (.dir n false es1) = [] from rfl]
                  rw [show processEntries req (join p n) [] s1 = s1 by
                        rw [processEntries.eq_def]]
                  simp [hasFileMatchInner, hasDirMatchInner, countInner, logsInner, readDirOk,
                    hsup, logsList_nil, listing]
                  rw [← hd1]
                · rw [show (!readDirOk (.dir n false es1) && !req.suppresErrors) = true by
                        simp [readDirOk, hsup]]
                  simp only [if_true]
                  simp [hasFileMatchInner, hasDirMatchInner, countInner, logsInner, readDirOk,
                    hsup]
                  rw [← hd1]
          by_cases hdc : dirCrit req (.dir n r es1)
          · have hmt : matchTypeOf req (.dir n r es1) = some "dir" := by
              simp [matchTypeOf, hf, hdc]
            have hd1 : (collProcess req ⟨join p n, true, "dir"⟩ s).done = false := by
              simp [collProcess, hd, shouldTerminate_of_not_returnEarly hre]
            rw [show processEntries req p (.dir n r es1 :: rest) s
                  = processEntries req p rest
                      (if !readDirOk (.dir n r es1) && !req.suppresErrors then
                          { collProcess req ⟨join p n, true, "dir"⟩ s with
                            logs := (collProcess req ⟨join p n, true, "dir"⟩ s).logs
                              ++ [join p n] }
                        else processEntries req (join p n) (listing (.dir n r es1))
                          (collProcess req ⟨join p n, true, "dir"⟩ s)) by
                rw [processEntries.eq_def]
                simp [hd, classify, hmt, FSEntry.isDir, FSEntry.Name, hd1]]
            rw [hdesc _ hd1]
            rw [processEntries_char req hre p rest _ rfl]
            simp [collProcess, applyEvent, hd, shouldTerminate_of_not_returnEarly hre,
              hasFileMatchList_cons, hasDirMatchList_cons, countList_cons, logsList_cons,
              isFileEvent, isDirEvent, isRegexEvent, hmt, hf, hdc, FSEntry.isDir, FSEntry.Name,
              Bool.or_assoc, Nat.add_assoc]
          · by_cases hr : rxCrit req (.dir n r es1)
            · have hmt : matchTypeOf req (.dir n r es1) = some "regex" := by
                simp [matchTypeOf, hf, hdc, hr]
              have hd1 : (collProcess req ⟨join p n, true, "regex"⟩ s).done = false := by
                simp [collProcess, hd, shouldTerminate_of_not_returnEarly hre]
              rw [show processEntries req p (.dir n r es1 :: rest) s
                    = processEntries req p rest
                        (if !readDirOk (.dir n r es1) && !req.suppresErrors then
                            { collProcess req ⟨join p n, true, "regex"⟩ s with
                              logs := (collProcess req ⟨join p n, true, "regex"⟩ s).logs
                                ++ [join p n] }
                          else processEntries req (join p n) (listing (.dir n r es1))
                            (collProcess req ⟨join p n, true, "regex"⟩ s)) by
                  rw [processEntries.eq_def]
                  simp [hd, classify, hmt, FSEntry.isDir, FSEntry.Name, hd1]]
              rw [hdesc _ hd1]
              rw [processEntries_char req hre p rest _ rfl]
              simp [collProcess, applyEvent, hd, shouldTerminate_of_not_returnEarly hre,
                hasFileMatchList_cons, hasDirMatchList_cons, countList_cons, logsList_cons,
                isFileEvent, isDirEvent, isRegexEvent, hmt, hf, hdc, hr, FSEntry.isDir,
                FSEntry.Name, Bool.or_assoc, Nat.add_assoc]
            · have hmt : matchTypeOf req (.dir n r es1) = none := by
                simp [matchTypeOf, hf, hdc, hr]
              rw [show processEntries req p (.dir n r es1 :: rest) s
                    = processEntries req p rest
                        (if !readDirOk (.dir n r es1) && !req.suppresErrors then
                            { s with logs := s.logs ++ [join p n] }
                          else processEntries req (join p n) (listing (.dir n r es1)) s) by
                  rw [processEntries.eq_def]
                  simp [hd, classify, hmt, FSEntry.isDir, FSEntry.Name]]
              rw [hdesc s hd]
              rw [processEntries_char req hre p rest _ rfl]
              simp [hasFileMatchList_cons, hasDirMatchList_cons, countList_cons, logsList_cons,
                isFileEvent, isDirEvent, isRegexEvent, hmt, hf, hdc, hr, FSEntry.isDir,
                FSEntry.Name, Bool.or_assoc, Nat.add_assoc]
termination_by sizeOf es

/-- The per-entry counter over a listable subtree agrees with the counter
over the listing of its root. -/
theorem countInner_eq_listing (pred : FSEntry → Bool) (e : FSEntry) :
    countInner pred e = countList pred (listing e) := by
  rcases e with n | ⟨n, r, es⟩
  · simp [countInner, listing, countList_nil]
  · cases r <;> simp [countInner, listing, countList_nil]

/-- The `fileFound` trigger over a listable subtree agrees with the trigger
over the listing of its root. -/
theorem hasFileMatchInner_eq_listing (req : Request) (e : FSEntry) :
    hasFileMatchInner req e = hasFileMatchList req (listing e) := by
  rcases e with n | ⟨n, r, es⟩
  · simp [hasFileMatchInner, listing, hasFileMatchList_nil]
  · cases r <;> simp [hasFileMatchInner, listing, hasFileMatchList_nil]

/-- The `dirFound` trigger over a listable subtree agrees with the trigger
over the listing of its root. -/
theorem hasDirMatchInner_eq_listing (req : Request) (e : FSEntry) :
    hasDirMatchInner req e = hasDirMatchList req (listing e) := by
  rcases e with n | ⟨n, r, es⟩
  · simp [hasDirMatchInner, listing, hasDirMatchList_nil]
  · cases r <;> simp [hasDirMatchInner, listing, hasDirMatchList_nil]

/-- Exhaustiveness of one `processDir` invocation when `returnEarly` is
unset (wrapper around the entry-loop characterization). -/
theorem processDir_char (req : Request) (hre : req.returnEarly = false) (p : String)
    (e : FSEntry) (s : WState) (hd : s.done = false) :
    processDir req p e s =
      ⟨false,
       ⟨s.core.fileFound || hasFileMatchInner req e,
        s.core.dirFound || hasDirMatchInner req e,
        ⟨s.core.stats.RegexMatches + countInner (isRegexEvent req) e,
         s.core.stats.FilesFound + countInner (isFileEvent req) e,
         s.core.stats.DirsFound + countInner (isDirEvent req) e⟩⟩,
       s.logs ++ logsInner req p e⟩ := by
  unfold processDir logsInner
  by_cases hro : (!readDirOk e && !req.suppresErrors) = true
  · rw [if_pos hro, if_pos hro]
    rcases e with n | ⟨n, r, es1⟩
    · simp [countInner, hasFileMatchInner, hasDirMatchInner]
      rw [← hd]
    · cases r with
      | true => simp [readDirOk] at hro
      | false =>
          simp [countInner, hasFileMatchInner, hasDirMatchInner]
          rw [← hd]
  · rw [if_neg hro, if_neg hro]
    rw [processEntries_char req hre p (listing e) s hd]
    simp [countInner_eq_listing, hasFileMatchInner_eq_listing, hasDirMatchInner_eq_listing]

/-- The walked counts agree with the whole-tree counts on a fully readable
forest (auxiliary form, by strong induction on the size of the forest). -/
theorem countList_eq_countAll_aux (pred : FSEntry → Bool) (N : Nat) :
    ∀ es : List FSEntry, sizeOf es ≤ N → allReadableList es = true →
      countList pred es = countAllList pred es := by
  induction N with
  | zero =>
      intro es hsz
      cases es <;> simp at hsz
  | succ N ih =>
      intro es hsz h
      cases es with
      | nil => rw [countList.eq_def, countAllList.eq_def]
      | cons e rest =>
          rw [allReadableList.eq_def] at h
          rcases e with n | ⟨n, r, es1⟩
          · simp at h hsz
            have ihrest := ih rest (by omega) h
            rw [countList_cons, countAllList.eq_def]
            simp [countInner, ihrest]
          · simp at h hsz
            obtain ⟨⟨hr, h1⟩, h2⟩ := h
            subst hr
            have ih1 := ih es1 (by omega) h1
            have ihrest := ih rest (by omega) h2
            rw [countList_cons, countAllList.eq_def]
            simp [countInner, ih1, ihrest]

/-- The walked counts agree with the whole-tree counts on a fully readable
forest. -/
theorem countList_eq_countAll (pred : FSEntry → Bool) (es : List FSEntry)
    (h : allReadableList es = true) : countList pred es = countAllList pred es :=
  countList_eq_countAll_aux pred (sizeOf es) es (Nat.le_refl _) h

/-- A fully readable tree has a fully readable listing. -/
theorem allReadableList_listing (e : FSEntry) (h : allReadable e = true) :
    allReadableList (listing e) = true := by
  rcases e with n | ⟨n, r, es⟩
  · rw [show listing (.file n) = [] from rfl, allReadableList.eq_def]
  · simp [allReadable] at h
    obtain ⟨hr, h1⟩ := h
    subst hr
    simpa [listing] using h1

/-- C1 (amended): with returnEarly=false, over a fully readable tree and a
well-formed regex, FilesFound counts exactly the non-directory entries whose
name equals fileName, DirsFound counts exactly the directory entries whose
name equals dirName, and RegexMatches counts exactly the entries whose name
matches the regex and that satisfy neither exact-name criterion (an entry
satisfying an exact-name criterion is tagged with that criterion instead of
"regex"). -/
theorem searchConcurrent_exhaustive_counts (req : Request) (rootDir : String) (root : FSEntry)
    (hre : req.returnEarly = false) (hrx : req.regex ≠ RegexSpec.malformed)
    (hr : allReadable root = true) :
    ((searchConcurrent req rootDir root).2.2.1).FilesFound
        = countAllList (fileCrit req) (rootEntries root) ∧
    ((searchConcurrent req rootDir root).2.2.1).DirsFound
        = countAllList (dirCrit req) (rootEntries root) ∧
    ((searchConcurrent req rootDir root).2.2.1).RegexMatches
        = countAllList (fun e => rxCrit req e && !dirCrit req e && !fileCrit req e)
            (rootEntries root) := by
  have hchar := processDir_char req hre rootDir root ⟨false, Core.init, []⟩ rfl
  have hfile : isFileEvent req = fileCrit req := funext (isFileEvent_eq req)
  have hdir : isDirEvent req = dirCrit req := funext (isDirEvent_eq req)
  have hrx2 : isRegexEvent req
      = (fun e => rxCrit req e && !dirCrit req e && !fileCrit req e) :=
    funext (isRegexEvent_eq req)
  have hall := allReadableList_listing root hr
  cases hq : req.regex with
  | malformed => exact absurd hq hrx
  | noPattern =>
      simp only [searchConcurrent, hq]
      rw [hchar]
      simp [Core.init, countInner_eq_listing, rootEntries, hfile, hdir, hrx2,
        countList_eq_countAll _ _ hall]
  | valid f =>
      simp only [searchConcurrent, hq]
      rw [hchar]
      simp [Core.init, countInner_eq_listing, rootEntries, hfile, hdir, hrx2,
        countList_eq_countAll _ _ hall]

/-- C1 counterexample: when an entry matches both the regex and the exact
file name, the returned RegexMatches (0 here) is NOT the true number of
entries matching the regex (1 here) — the exact-name tag wins. -/
theorem searchConcurrent_regexmatches_undercount :
    ((searchConcurrent ⟨"a.txt", "", .valid (fun s => s == "a.txt"), false, false, 1⟩ "r"
        (.dir "r" true [.file "a.txt"])).2.2.1).RegexMatches = 0 ∧
    countAllList (rxCrit ⟨"a.txt", "", .valid (fun s => s == "a.txt"), false, false, 1⟩)
      (rootEntries (.dir "r" true [.file "a.txt"])) = 1 := by
  constructor
  · simp [searchConcurrent, processDir, processEntries.eq_def, classify, matchTypeOf,
      fileCrit, dirCrit, rxCrit, collProcess, applyEvent, shouldTerminate, listing, readDirOk,
      join, FSEntry.Name, FSEntry.isDir, Core.init]
  · simp [countAllList.eq_def, rootEntries, listing, rxCrit, FSEntry.Name]

/-- Witness for `searchConcurrent_exhaustive_counts` on the spec scenario
tree /a/b/target.txt, /a/c/target.txt with fileName="target.txt": the
theorem applies, the file count is 2 and fileFound is true. -/
theorem searchConcurrent_exhaustive_counts_witness :
    (((searchConcurrent ⟨"target.txt", "", .noPattern, false, false, 10⟩ "/a"
        (.dir "a" true [.dir "b" true [.file "target.txt"],
          .dir "c" true [.file "target.txt"]])).2.2.1).FilesFound
      = countAllList (fileCrit ⟨"target.txt", "", .noPattern, false, false, 10⟩)
          (rootEntries (.dir "a" true [.dir "b" true [.file "target.txt"],
            .dir "c" true [.file "target.txt"]])) ∧
     ((searchConcurrent ⟨"target.txt", "", .noPattern, false, false, 10⟩ "/a"
        (.dir "a" true [.dir "b" true [.file "target.txt"],
          .dir "c" true [.file "target.txt"]])).2.2.1).DirsFound
      = countAllList (dirCrit ⟨"target.txt", "", .noPattern, false, false, 10⟩)
          (rootEntries (.dir "a" true [.dir "b" true [.file "target.txt"],
            .dir "c" true [.file "target.txt"]])) ∧
     ((searchConcurrent ⟨"target.txt", "", .noPattern, false, false, 10⟩ "/a"
        (.dir "a" true [.dir "b" true [.file "target.txt"],
          .dir "c" true [.file "target.txt"]])).2.2.1).RegexMatches
      = countAllList (fun e => rxCrit ⟨"target.txt", "", .noPattern, false, false, 10⟩ e
            && !dirCrit ⟨"target.txt", "", .noPattern, false, false, 10⟩ e
            && !fileCrit ⟨"target.txt", "", .noPattern, false, false, 10⟩ e)
          (rootEntries (.dir "a" true [.dir "b" true [.file "target.txt"],
            .dir "c" true [.file "target.txt"]]))) ∧
    countAllList (fileCrit ⟨"target.txt", "", .noPattern, false, false, 10⟩)
      (rootEntries (.dir "a" true [.dir "b" true [.file "target.txt"],
        .dir "c" true [.file "target.txt"]])) = 2 ∧
    (searchConcurrent ⟨"target.txt", "", .noPattern, false, false, 10⟩ "/a"
      (.dir "a" true [.dir "b" true [.file "target.txt"],
        .dir "c" true [.file "target.txt"]])).1 = true :=
  ⟨searchConcurrent_exhaustive_counts ⟨"target.txt", "", .noPattern, false, false, 10⟩ "/a"
      (.dir "a" true [.dir "b" true [.file "target.txt"], .dir "c" true [.file "target.txt"]])
      rfl (fun h => RegexSpec.noConfusion h)
      (by simp [allReadable, allReadableList.eq_def]),
   by simp [countAllList.eq_def, rootEntries, listing, fileCrit, FSEntry.Name, FSEntry.isDir],
   by simp [searchConcurrent, processDir, processEntries.eq_def, classify, matchTypeOf,
     fileCrit, dirCrit, rxCrit, collProcess, applyEvent, shouldTerminate, listing, readDirOk,
     join, FSEntry.Name, FSEntry.isDir, Core.init]⟩

/-- C4: the call errors only on a malformed regex, and that failure is
decided before any filesystem access (the result is then the same for every
tree); otherwise the error is nil, an unreadable directory never aborts the
call — the counts cover exactly what could be walked in the readable
subtrees — and the error log holds exactly the per-subtree notifications
described by `logsInner` (one line per unreadable directory reached, none
when suppression is on). -/
theorem searchConcurrent_error_handling (req : Request) (rootDir : String) (root : FSEntry) :
    (req.regex = RegexSpec.malformed →
      ∀ root2 : FSEntry, searchConcurrent req rootDir root = searchConcurrent req rootDir root2) ∧
    (req.regex ≠ RegexSpec.malformed →
      (searchConcurrent req rootDir root).2.2.2 = none ∧
      (req.returnEarly = false →
        ((searchConcurrent req rootDir root).2.2.1).FilesFound
            = countList (fileCrit req) (listing root) ∧
        ((searchConcurrent req rootDir root).2.2.1).DirsFound
            = countList (dirCrit req) (listing root) ∧
        ((searchConcurrent req rootDir root).2.2.1).RegexMatches
            = countList (fun e => rxCrit req e && !dirCrit req e && !fileCrit req e)
                (listing root) ∧
        searchLogs req rootDir root = logsInner req rootDir root)) := by
  constructor
  · intro h root2
    simp [searchConcurrent, h]
  · intro hrx
    have hfile : isFileEvent req = fileCrit req := funext (isFileEvent_eq req)
    have hdir : isDirEvent req = dirCrit req := funext (isDirEvent_eq req)
    have hrx2 : isRegexEvent req
        = (fun e => rxCrit req e && !dirCrit req e && !fileCrit req e) :=
      funext (isRegexEvent_eq req)
    cases hq : req.regex with
    | malformed => exact absurd hq hrx
    | noPattern =>
        refine ⟨by simp [searchConcurrent, hq], ?_⟩
        intro hre
        have hchar := processDir_char req hre rootDir root ⟨false, Core.init, []⟩ rfl
        simp only [searchConcurrent, searchLogs, hq]
        rw [hchar]
        simp [Core.init, countInner_eq_listing, hfile, hdir, hrx2]
    | valid f =>
        refine ⟨by simp [searchConcurrent, hq], ?_⟩
        intro hre
        have hchar := processDir_char req hre rootDir root ⟨false, Core.init, []⟩ rfl
        simp only [searchConcurrent, searchLogs, hq]
        rw [hchar]
        simp [Core.init, countInner_eq_listing, hfile, hdir, hrx2]

/-- Witness for `searchConcurrent_error_handling` on a tree with one
readable and one unreadable subtree, suppression off: the call returns no
error, counts the readable match, and logs exactly one notification, the
unreadable subtree path. -/
theorem searchConcurrent_error_handling_witness :
    ((RegexSpec.noPattern = RegexSpec.malformed →
      ∀ root2 : FSEntry,
        searchConcurrent ⟨"t", "", .noPattern, false, false, 2⟩ "r"
            (.dir "r" true [.dir "ok" true [.file "t"], .dir "bad" false [.file "t"]])
          = searchConcurrent ⟨"t", "", .noPattern, false, false, 2⟩ "r" root2) ∧
     (RegexSpec.noPattern ≠ RegexSpec.malformed →
      (searchConcurrent ⟨"t", "", .noPattern, false, false, 2⟩ "r"
          (.dir "r" true [.dir "ok" true [.file "t"], .dir "bad" false [.file "t"]])).2.2.2
        = none ∧
      (false = false →
        ((searchConcurrent ⟨"t", "", .noPattern, false, false, 2⟩ "r"
            (.dir "r" true [.dir "ok" true [.file "t"],
              .dir "bad" false [.file "t"]])).2.2.1).FilesFound
            = countList (fileCrit ⟨"t", "", .noPattern, false, false, 2⟩)
                (listing (.dir "r" true [.dir "ok" true [.file "t"],
                  .dir "bad" false [.file "t"]])) ∧
        ((searchConcurrent ⟨"t", "", .noPattern, false, false, 2⟩ "r"
            (.dir "r" true [.dir "ok" true [.file "t"],
              .dir "bad" false [.file "t"]])).2.2.1).DirsFound
            = countList (dirCrit ⟨"t", "", .noPattern, false, false, 2⟩)
                (listing (.dir "r" true [.dir "ok" true [.file "t"],
                  .dir "bad" false [.file "t"]])) ∧
        ((searchConcurrent ⟨"t", "", .noPattern, false, false, 2⟩ "r"
            (.dir "r" true [.dir "ok" true [.file "t"],
              .dir "bad" false [.file "t"]])).2.2.1).RegexMatches
            = countList (fun e => rxCrit ⟨"t", "", .noPattern, false, false, 2⟩ e
                  && !dirCrit ⟨"t", "", .noPattern, false, false, 2⟩ e
                  && !fileCrit ⟨"t", "", .noPattern, false, false, 2⟩ e)
                (listing (.dir "r" true [.dir "ok" true [.file "t"],
                  .dir "bad" false [.file "t"]])) ∧
        searchLogs ⟨"t", "", .noPattern, false, false, 2⟩ "r"
            (.dir "r" true [.dir "ok" true [.file "t"], .dir "bad" false [.file "t"]])
          = logsInner ⟨"t", "", .noPattern, false, false, 2⟩ "r"
              (.dir "r" true [.dir "ok" true [.file "t"], .dir "bad" false [.file "t"]])))) ∧
    searchLogs ⟨"t", "", .noPattern, false, false, 2⟩ "r"
        (.dir "r" true [.dir "ok" true [.file "t"], .dir "bad" false [.file "t"]])
      = ["r/bad"] ∧
    ((searchConcurrent ⟨"t", "", .noPattern, false, false, 2⟩ "r"
        (.dir "r" true [.dir "ok" true [.file "t"],
          .dir "bad" false [.file "t"]])).2.2.1).FilesFound = 1 ∧
    (searchConcurrent ⟨"t", "", .noPattern, false, false, 2⟩ "r"
        (.dir "r" true [.dir "ok" true [.file "t"], .dir "bad" false [.file "t"]])).2.2.2
      = none :=
  ⟨searchConcurrent_error_handling ⟨"t", "", .noPattern, false, false, 2⟩ "r"
      (.dir "r" true [.dir "ok" true [.file "t"], .dir "bad" false [.file "t"]]),
   by simp [searchLogs, processDir, processEntries.eq_def, classify, matchTypeOf,
     fileCrit, dirCrit, rxCrit, collProcess, applyEvent, shouldTerminate, listing, readDirOk,
     join, FSEntry.Name, FSEntry.isDir, Core.init, logsList.eq_def, logsInner],
   by simp [searchConcurrent, processDir, processEntries.eq_def, classify, matchTypeOf,
     fileCrit, dirCrit, rxCrit, collProcess, applyEvent, shouldTerminate, listing, readDirOk,
     join, FSEntry.Name, FSEntry.isDir, Core.init],
   by simp [searchConcurrent, processDir, processEntries.eq_def, classify, matchTypeOf,
     fileCrit, dirCrit, rxCrit, collProcess, applyEvent, shouldTerminate, listing, readDirOk,
     join, FSEntry.Name, FSEntry.isDir, Core.init]⟩

/-- If nothing in a listing (or below it) satisfies a `dirFound`-setting
criterion, the walk leaves `dirFound` unchanged — for every request,
early-terminating or not (auxiliary form, by strong induction on size). -/
theorem processEntries_dirFound_aux (req : Request) (N : Nat) :
    ∀ (p : String) (es : List FSEntry) (s : WState), sizeOf es ≤ N →
      hasDirMatchList req es = false →
      (processEntries req p es s).core.dirFound = s.core.dirFound := by
  induction N with
  | zero =>
      intro p es s hsz
      cases es <;> simp at hsz
  | succ N ih =>
      intro p es s hsz h
      cases es with
      | nil => rw [processEntries.eq_def]
      | cons e rest =>
          rw [hasDirMatchList_cons] at h
          simp only [Bool.or_eq_false_iff] at h
          obtain ⟨⟨⟨hdc, hrxd⟩, hinner⟩, hrest⟩ := h
          simp only [List.cons.sizeOf_spec] at hsz
          rcases e with n | ⟨n, r, es1⟩
          · have hszr : sizeOf rest ≤ N := by
              simp only [FSEntry.file.sizeOf_spec] at hsz
              omega
            by_cases hsd : s.done = true
            · rw [processEntries.eq_def]
              simp [hsd]
            · by_cases hf : fileCrit req (.file n)
              · have hmt : matchTypeOf req (.file n) = some "file" := by simp [matchTypeOf, hf]
                rw [show processEntries req p (.file n :: rest) s
                      = processEntries req p rest
                          (collProcess req ⟨join p n, false, "file"⟩ s) by
                    rw [processEntries.eq_def]
                    simp [hsd, classify, hmt, FSEntry.isDir, FSEntry.Name]]
                rw [ih p rest _ hszr hrest]
                simp [collProcess, applyEvent]
              · by_cases hr : rxCrit req (.file n)
                · have hmt : matchTypeOf req (.file n) = some "regex" := by
                    simp [matchTypeOf, hf, hr, dirCrit, FSEntry.isDir]
                  rw [show processEntries req p (.file n :: rest) s
                        = processEntries req p rest
                            (collProcess req ⟨join p n, false, "regex"⟩ s) by
                      rw [processEntries.eq_def]
                      simp [hsd, classify, hmt, FSEntry.isDir, FSEntry.Name]]
                  rw [ih p rest _ hszr hrest]
                  simp [collProcess, applyEvent]
                · have hmt : matchTypeOf req (.file n) = none := by
                    simp [matchTypeOf, hf, hr, dirCrit, FSEntry.isDir]
                  rw [show processEntries req p (.file n :: rest) s
                        = processEntries req p rest s by
                      rw [processEntries.eq_def]
                      simp [hsd, classify, hmt, FSEntry.isDir]]
                  exact ih p rest s hszr hrest
          · have hszr : sizeOf rest ≤ N := by
              simp only [FSEntry.dir.sizeOf_spec] at hsz
              omega
            have hszl : sizeOf (listing (.dir n r es1)) ≤ N := by
              cases r <;> simp only [FSEntry.dir.sizeOf_spec] at hsz <;>
                simp [listing] <;> omega
            have hrx : rxCrit req (.dir n r es1) = false := by
              simpa [FSEntry.isDir] using hrxd
            have hmt : matchTypeOf req (.dir n r es1) = none := by
              simp [matchTypeOf, hdc, hrx, fileCrit, FSEntry.isDir]
            by_cases hsd : s.done = true
            · rw [processEntries.eq_def]
              simp [hsd]
            · rw [show processEntries req p (.dir n r es1 :: rest) s
                    = processEntries req p rest
                        (if !readDirOk (.dir n r es1) && !req.suppresErrors then
                            { s with logs := s.logs ++ [join p n] }
                          else processEntries req (join p n) (listing (.dir n r es1)) s) by
                  rw [processEntries.eq_def]
                  simp [hsd, classify, hmt, FSEntry.isDir, FSEntry.Name]]
              rw [ih p rest _ hszr hrest]
              by_cases hro : (!readDirOk (.dir n r es1) && !req.suppresErrors) = true
              · rw [if_pos hro]
              · rw [if_neg hro]
                exact ih (join p n) (listing (.dir n r es1)) s hszl
                  (by rw [← hasDirMatchInner_eq_listing]; exact hinner)

/-- If nothing in a listing (or below it) satisfies a `dirFound`-setting
criterion, the walk leaves `dirFound` unchanged — for every request,
early-terminating or not. -/
theorem processEntries_dirFound (req : Request) (p : String) (es : List FSEntry) (s : WState)
    (h : hasDirMatchList req es = false) :
    (processEntries req p es s).core.dirFound = s.core.dirFound :=
  processEntries_dirFound_aux req (sizeOf es) p es s (Nat.le_refl _) h

/-- C10: the root directory itself is never classified — the result of a
call is independent of the root directory entry name, and when no listed
entry would set `dirFound`, the call reports `dirFound = false` even if the
root directory name equals `dirName` or matches the regex. -/
theorem root_never_matched (req : Request) (rootDir : String) (n1 n2 : String) (r : Bool)
    (es : List FSEntry) :
    searchConcurrent req rootDir (.dir n1 r es) = searchConcurrent req rootDir (.dir n2 r es) ∧
    (hasDirMatchList req (listing (.dir n1 r es)) = false →
      (searchConcurrent req rootDir (.dir n1 r es)).2.1 = false) := by
  constructor
  · cases hq : req.regex <;> cases r <;> simp only [searchConcurrent, hq] <;> rfl
  · intro h
    cases hq : req.regex with
    | malformed => simp [searchConcurrent, hq]
    | noPattern =>
        simp only [searchConcurrent, hq]
        unfold processDir
        by_cases hro : (!readDirOk (.dir n1 r es) && !req.suppresErrors) = true
        · rw [if_pos hro]
          simp [Core.init]
        · rw [if_neg hro]
          rw [processEntries_dirFound req rootDir (listing (.dir n1 r es)) _ h]
          simp [Core.init]
    | valid f =>
        simp only [searchConcurrent, hq]
        unfold processDir
        by_cases hro : (!readDirOk (.dir n1 r es) && !req.suppresErrors) = true
        · rw [if_pos hro]
          simp [Core.init]
        · rw [if_neg hro]
          rw [processEntries_dirFound req rootDir (listing (.dir n1 r es)) _ h]
          simp [Core.init]

/-- Witness for `root_never_matched`: even though the root directory is
itself named "needle" and dirName="needle", no event is emitted for it:
dirFound stays false (and renaming the root changes nothing). -/
theorem root_never_matched_witness :
    (searchConcurrent ⟨"", "needle", .noPattern, false, false, 1⟩ "/x"
        (.dir "needle" true [.file "inner"])
      = searchConcurrent ⟨"", "needle", .noPattern, false, false, 1⟩ "/x"
        (.dir "other" true [.file "inner"]) ∧
     (hasDirMatchList ⟨"", "needle", .noPattern, false, false, 1⟩
          (listing (.dir "needle" true [.file "inner"])) = false →
       (searchConcurrent ⟨"", "needle", .noPattern, false, false, 1⟩ "/x"
          (.dir "needle" true [.file "inner"])).2.1 = false)) ∧
    hasDirMatchList ⟨"", "needle", .noPattern, false, false, 1⟩
        (listing (.dir "needle" true [.file "inner"])) = false ∧
    (searchConcurrent ⟨"", "needle", .noPattern, false, false, 1⟩ "/x"
        (.dir "needle" true [.file "inner"])).2.1 = false :=
  ⟨root_never_matched ⟨"", "needle", .noPattern, false, false, 1⟩ "/x" "needle" "other" true
      [.file "inner"],
   by simp [hasDirMatchList.eq_def, listing, dirCrit, rxCrit, FSEntry.isDir, FSEntry.Name],
   (root_never_matched ⟨"", "needle", .noPattern, false, false, 1⟩ "/x" "needle" "other" true
      [.file "inner"]).2
     (by simp [hasDirMatchList.eq_def, listing, dirCrit, rxCrit, FSEntry.isDir, FSEntry.Name])⟩

/-- The collector switch in explicit update form: each event contributes a
fixed flag/counter delta determined by its tag and `IsDir`. -/
theorem applyEvent_delta (ev : SearchResult) (c : Core) :
    applyEvent ev c =
      ⟨c.fileFound || ((ev.Matched == "file") || ((ev.Matched == "regex") && !ev.IsDir)),
       c.dirFound || ((ev.Matched == "dir") || ((ev.Matched == "regex") && ev.IsDir)),
       ⟨c.stats.RegexMatches + (if ev.Matched == "regex" then 1 else 0),
        c.stats.FilesFound + (if ev.Matched == "file" then 1 else 0),
        c.stats.DirsFound + (if ev.Matched == "dir" then 1 else 0)⟩⟩ := by
  by_cases h1 : ev.Matched = "file"
  · simp [applyEvent, h1]
  · by_cases h2 : ev.Matched = "dir"
    · simp [applyEvent, h1, h2]
    · by_cases h3 : ev.Matched = "regex"
      · by_cases hid : ev.IsDir = true <;> simp [applyEvent, h1, h2, h3, hid]
      · have b1 : (ev.Matched == "file") = false := beq_eq_false_iff_ne.mpr h1
        have b2 : (ev.Matched == "dir") = false := beq_eq_false_iff_ne.mpr h2
        have b3 : (ev.Matched == "regex") = false := beq_eq_false_iff_ne.mpr h3
        simp [applyEvent, h1, h2, h3, b1, b2, b3]

/-- Two collector switch bodies commute: the final flags and counters do
not depend on the order in which two events are consumed. -/
theorem applyEvent_comm (ev1 ev2 : SearchResult) (c : Core) :
    applyEvent ev2 (applyEvent ev1 c) = applyEvent ev1 (applyEvent ev2 c) := by
  simp [applyEvent_delta, Bool.or_assoc, Bool.or_comm, Bool.or_left_comm,
    Nat.add_assoc, Nat.add_comm, Nat.add_left_comm]

/-- Pending-event count of the empty task list. -/
theorem tasksFuture_nil (evP : SearchResult → Bool) (enP : FSEntry → Bool) :
    tasksFuture evP enP [] = 0 := rfl

/-- Pending-event count of a task-list cons. -/
theorem tasksFuture_cons (evP : SearchResult → Bool) (enP : FSEntry → Bool)
    (t : DTask) (ts : List DTask) :
    tasksFuture evP enP (t :: ts) = taskFuture evP enP t + tasksFuture evP enP ts := by
  simp [tasksFuture]

/-- Pending-event count distributes over list append. -/
theorem tasksFuture_append (evP : SearchResult → Bool) (enP : FSEntry → Bool)
    (a b : List DTask) :
    tasksFuture evP enP (a ++ b) = tasksFuture evP enP a + tasksFuture evP enP b := by
  simp [tasksFuture]

/-- Popping a frame preserves the pending events of the frames that remain:
the popped invocation had no entries left to iterate. -/
theorem tasksFuture_afterPop (evP : SearchResult → Bool) (enP : FSEntry → Bool)
    (pre : List DTask) (fs : List Frame) (tok : Bool) (post : List DTask) :
    tasksFuture evP enP (afterPop pre fs tok post)
      = (tasksFuture evP enP pre + (fs.map (frameFuture enP)).sum)
          + tasksFuture evP enP post := by
  cases fs <;>
    simp [afterPop, tasksFuture_append, tasksFuture_cons, taskFuture, pcFuture] <;>
    omega

/-- An entry contributes a pending event whose collector case increments
`FilesFound` exactly when its tag is "file". -/
theorem classify_fileEv (req : Request) (p : String) (e : FSEntry) :
    (match classify req p e with
     | some ev => if fileEvRes ev then 1 else 0
     | none => 0) = if isFileEvent req e then 1 else 0 := by
  rcases hmt : matchTypeOf req e with _ | t <;>
    simp [classify, hmt, isFileEvent, fileEvRes] <;> rfl

/-- An entry contributes a pending event whose collector case increments
`DirsFound` exactly when its tag is "dir". -/
theorem classify_dirEv (req : Request) (p : String) (e : FSEntry) :
    (match classify req p e with
     | some ev => if dirEvRes ev then 1 else 0
     | none => 0) = if isDirEvent req e then 1 else 0 := by
  rcases hmt : matchTypeOf req e with _ | t <;>
    simp [classify, hmt, isDirEvent, dirEvRes] <;> rfl

/-- An entry contributes a pending regex event that sets `fileFound` exactly
when it is a non-directory tagged "regex" (the event records the entry's
`IsDir`). -/
theorem classify_regexFileEv (req : Request) (p : String) (e : FSEntry) :
    (match classify req p e with
     | some ev => if regexFileEvRes ev then 1 else 0
     | none => 0) = if isRegexFileEvent req e then 1 else 0 := by
  rcases hmt : matchTypeOf req e with _ | t <;>
    simp [classify, hmt, isRegexFileEvent, regexFileEvRes] <;> rfl

/-- An entry contributes a pending regex event that sets `dirFound` exactly
when it is a directory tagged "regex". -/
theorem classify_regexDirEv (req : Request) (p : String) (e : FSEntry) :
    (match classify req p e with
     | some ev => if regexDirEvRes ev then 1 else 0
     | none => 0) = if isRegexDirEvent req e then 1 else 0 := by
  rcases hmt : matchTypeOf req e with _ | t <;>
    simp [classify, hmt, isRegexDirEvent, regexDirEvRes] <;> rfl

/-- Pending events at the control point reached after one entry's
classification: the entry's own event, if any, plus everything listable
below the entry. -/
theorem pcFuture_afterEntry (evP : SearchResult → Bool) (enP : FSEntry → Bool)
    (req : Request) (p : String) (e : FSEntry)
    (hlink : (match classify req p e with
              | some ev => if evP ev then 1 else 0
              | none => 0) = if enP e then 1 else 0) :
    pcFuture evP enP (afterEntry req p e)
      = (if enP e then 1 else 0) + countList enP (listing e) := by
  rw [← hlink]
  rcases hcl : classify req p e with _ | ev <;>
    rcases e with n | ⟨n, r, es⟩ <;>
      simp [afterEntry, hcl, pcFuture, FSEntry.isDir, listing, countList_nil]

/-- One entry-loop iteration moves pending events from the frame to the
control point but consumes none. -/
theorem sysFuture_advance (evP : SearchResult → Bool) (enP : FSEntry → Bool)
    (req : Request) (pre post : List DTask) (p : String) (e : FSEntry)
    (rem : List FSEntry) (fs : List Frame) (tok : Bool) (rc : Bool) (cl : CollCtl)
    (c : Core) (rv : Option (Bool × Bool × SearchStats))
    (hlink : (match classify req p e with
              | some ev => if evP ev then 1 else 0
              | none => 0) = if enP e then 1 else 0) :
    sysFuture evP enP
        ⟨pre ++ ⟨⟨p, rem⟩ :: fs, afterEntry req p e, tok⟩ :: post, false, rc, cl, c, rv, false⟩
      = sysFuture evP enP
        ⟨pre ++ ⟨⟨p, e :: rem⟩ :: fs, .top, tok⟩ :: post, false, rc, cl, c, rv, false⟩ := by
  simp only [sysFuture, tasksFuture_append, tasksFuture_cons, taskFuture,
    List.map_cons, List.sum_cons, frameFuture, countList_cons, countInner_eq_listing]
  rw [pcFuture_afterEntry evP enP req p e hlink]
  simp only [pcFuture]
  omega

/-- The emission rendezvous moves one pending event from the sending task to
the collector and consumes none. -/
theorem sysFuture_rendezvous (evP : SearchResult → Bool) (enP : FSEntry → Bool)
    (pre post : List DTask) (ev : SearchResult) (sub : Option FSEntry)
    (fs : List Frame) (tok : Bool) (d rc : Bool) (c : Core)
    (rv : Option (Bool × Bool × SearchStats)) :
    sysFuture evP enP
        ⟨pre ++ ⟨fs, (match sub with | some s => PC.spawnsel s | none => PC.top), tok⟩ :: post,
         d, rc, .has ev, c, rv, false⟩
      = sysFuture evP enP
        ⟨pre ++ ⟨fs, .sending ev sub, tok⟩ :: post, d, rc, .waiting, c, rv, false⟩ := by
  cases sub <;>
    simp only [sysFuture, tasksFuture_append, tasksFuture_cons, taskFuture, pcFuture,
      collFuture] <;>
    omega

/-- A finished invocation returns without pending events: popping its frame
changes no pending count. -/
theorem sysFuture_frameDone (evP : SearchResult → Bool) (enP : FSEntry → Bool)
    (pre post : List DTask) (p : String) (fs : List Frame) (tok : Bool) (d rc : Bool)
    (cl : CollCtl) (c : Core) (rv : Option (Bool × Bool × SearchStats)) :
    sysFuture evP enP ⟨afterPop pre fs tok post, d, rc, cl, c, rv, false⟩
      = sysFuture evP enP
        ⟨pre ++ ⟨⟨p, []⟩ :: fs, .top, tok⟩ :: post, d, rc, cl, c, rv, false⟩ := by
  simp only [sysFuture, tasksFuture_afterPop, tasksFuture_append, tasksFuture_cons,
    taskFuture, pcFuture, List.map_cons, List.sum_cons, frameFuture, countList_nil]
  omega

/-- Handing a subdirectory to a freshly spawned task moves its pending
events to the new task and consumes none. -/
theorem sysFuture_spawnGo (evP : SearchResult → Bool) (enP : FSEntry → Bool)
    (pre post : List DTask) (p : String) (rem : List FSEntry) (sub : FSEntry)
    (fs : List Frame) (tok : Bool) (d rc : Bool) (cl : CollCtl) (c : Core)
    (rv : Option (Bool × Bool × SearchStats)) :
    sysFuture evP enP
        ⟨(pre ++ ⟨⟨p, rem⟩ :: fs, .top, tok⟩ :: post)
            ++ [⟨[⟨join p sub.Name, listing sub⟩], .top, true⟩], d, rc, cl, c, rv, false⟩
      = sysFuture evP enP
        ⟨pre ++ ⟨⟨p, rem⟩ :: fs, .spawnsel sub, tok⟩ :: post, d, rc, cl, c, rv, false⟩ := by
  simp only [sysFuture, tasksFuture_append, tasksFuture_cons, tasksFuture_nil, taskFuture,
    pcFuture, List.map_cons, List.map_nil, List.sum_cons, List.sum_nil, frameFuture]
  omega

/-- Descending into a subdirectory synchronously moves its pending events
to a new stack frame and consumes none. -/
theorem sysFuture_spawnSync (evP : SearchResult → Bool) (enP : FSEntry → Bool)
    (pre post : List DTask) (p : String) (rem : List FSEntry) (sub : FSEntry)
    (fs : List Frame) (tok : Bool) (rc : Bool) (cl : CollCtl) (c : Core)
    (rv : Option (Bool × Bool × SearchStats)) :
    sysFuture evP enP
        ⟨pre ++ ⟨⟨join p sub.Name, listing sub⟩ :: ⟨p, rem⟩ :: fs, .top, tok⟩ :: post,
         false, rc, cl, c, rv, false⟩
      = sysFuture evP enP
        ⟨pre ++ ⟨⟨p, rem⟩ :: fs, .spawnsel sub, tok⟩ :: post, false, rc, cl, c, rv, false⟩ := by
  simp only [sysFuture, tasksFuture_append, tasksFuture_cons, taskFuture, pcFuture,
    List.map_cons, List.sum_cons, frameFuture]
  omega

/-- The conservation invariant holds initially: nothing is consumed and the
whole per-kind totals of the root listing are pending in the root task. -/
theorem drainInv_init (req : Request) (rootDir : String) (root : FSEntry) :
    DrainInv req root (initSys rootDir root) := by
  simp only [DrainInv]
  refine ⟨rfl, rfl, ?_, ?_, ?_, ?_, ?_, ?_, ?_⟩ <;>
    simp only [initSys, sysFuture, tasksFuture, taskFuture, frameFuture, pcFuture,
      collFuture, Core.init, List.map_cons, List.map_nil, List.sum_cons, List.sum_nil,
      Nat.add_zero, Nat.zero_add, Nat.sub_self] <;>
    first | rfl | omega

/-- Every step of a `returnEarly=false` call preserves the conservation
invariant: `doneChan` stays open, no panic occurs, and a collector switch
body moves exactly one pending event of its kind into the shared
counters. -/
theorem drainInv_step (req : Request) (root : FSEntry) (σ σ' : Sys)
    (hre : req.returnEarly = false) (hinv : DrainInv req root σ)
    (hs : Step req σ σ') : DrainInv req root σ' := by
  simp only [DrainInv] at hinv ⊢
  obtain ⟨hd, hpk, hF, hD, hRFle, hRDle, hRX, hff, hdf⟩ := hinv
  cases hs with
  | advance pre post p e rem fs tok rc cl c rv =>
      rw [sysFuture_advance fileEvRes (isFileEvent req) req pre post p e rem fs tok rc cl c
            rv (classify_fileEv req p e),
          sysFuture_advance dirEvRes (isDirEvent req) req pre post p e rem fs tok rc cl c
            rv (classify_dirEv req p e),
          sysFuture_advance regexFileEvRes (isRegexFileEvent req) req pre post p e rem fs
            tok rc cl c rv (classify_regexFileEv req p e),
          sysFuture_advance regexDirEvRes (isRegexDirEvent req) req pre post p e rem fs
            tok rc cl c rv (classify_regexDirEv req p e)]
      exact ⟨rfl, rfl, hF, hD, hRFle, hRDle, hRX, hff, hdf⟩
  | doneSkip pre post p e rem fs tok rc cl c rv => simp at hd
  | frameDone pre post p fs tok d rc cl c rv =>
      rw [sysFuture_frameDone fileEvRes (isFileEvent req) pre post p fs tok d rc cl c rv,
          sysFuture_frameDone dirEvRes (isDirEvent req) pre post p fs tok d rc cl c rv,
          sysFuture_frameDone regexFileEvRes (isRegexFileEvent req) pre post p fs tok d rc
            cl c rv,
          sysFuture_frameDone regexDirEvRes (isRegexDirEvent req) pre post p fs tok d rc
            cl c rv]
      exact ⟨hd, rfl, hF, hD, hRFle, hRDle, hRX, hff, hdf⟩
  | rendezvous pre post ev sub fs tok d rc c rv =>
      rw [sysFuture_rendezvous fileEvRes (isFileEvent req) pre post ev sub fs tok d rc c rv,
          sysFuture_rendezvous dirEvRes (isDirEvent req) pre post ev sub fs tok d rc c rv,
          sysFuture_rendezvous regexFileEvRes (isRegexFileEvent req) pre post ev sub fs tok
            d rc c rv,
          sysFuture_rendezvous regexDirEvRes (isRegexDirEvent req) pre post ev sub fs tok
            d rc c rv]
      exact ⟨hd, rfl, hF, hD, hRFle, hRDle, hRX, hff, hdf⟩
  | sendAbandon pre post ev sub p rem fs tok rc cl c rv => simp at hd
  | spawnGo pre post p rem sub fs tok d rc cl c rv hcap =>
      rw [sysFuture_spawnGo fileEvRes (isFileEvent req) pre post p rem sub fs tok d rc cl
            c rv,
          sysFuture_spawnGo dirEvRes (isDirEvent req) pre post p rem sub fs tok d rc cl
            c rv,
          sysFuture_spawnGo regexFileEvRes (isRegexFileEvent req) pre post p rem sub fs tok
            d rc cl c rv,
          sysFuture_spawnGo regexDirEvRes (isRegexDirEvent req) pre post p rem sub fs tok
            d rc cl c rv]
      exact ⟨hd, rfl, hF, hD, hRFle, hRDle, hRX, hff, hdf⟩
  | spawnSync pre post p rem sub fs tok rc cl c rv hcap =>
      rw [sysFuture_spawnSync fileEvRes (isFileEvent req) pre post p rem sub fs tok rc cl
            c rv,
          sysFuture_spawnSync dirEvRes (isDirEvent req) pre post p rem sub fs tok rc cl
            c rv,
          sysFuture_spawnSync regexFileEvRes (isRegexFileEvent req) pre post p rem sub fs
            tok rc cl c rv,
          sysFuture_spawnSync regexDirEvRes (isRegexDirEvent req) pre post p rem sub fs
            tok rc cl c rv]
      exact ⟨rfl, rfl, hF, hD, hRFle, hRDle, hRX, hff, hdf⟩
  | spawnAbandon pre post sub p rem fs tok rc cl c rv => simp at hd
  | collProcessNoStop ts ev d rc c rv hst =>
      clear hst
      refine ⟨hd, rfl, ?_, ?_, ?_, ?_, ?_, ?_, ?_⟩ <;>
        (simp only [sysFuture, collFuture, applyEvent_delta, fileEvRes, dirEvRes,
            regexFileEvRes, regexDirEvRes] at hF hD hRFle hRDle hRX hff hdf ⊢ <;>
          cases h3 : (ev.Matched == "regex") <;> cases h4 : ev.IsDir <;>
          cases h1 : (ev.Matched == "file") <;> cases h2 : (ev.Matched == "dir") <;>
            simp only [h1, h2, h3, h4, Bool.false_and, Bool.true_and, Bool.and_false,
              Bool.and_true, Bool.not_false, Bool.not_true, Bool.or_false, Bool.or_true,
              Bool.false_or, Bool.true_or, Bool.false_eq_true, Bool.true_eq_false,
              eq_self_iff_true, if_true, if_false, Nat.add_zero, Nat.zero_add]
              at hF hD hRFle hRDle hRX hff hdf ⊢ <;>
            first
              | exact hff
              | exact hdf
              | omega
              | (symm; rw [decide_eq_true_eq]; omega))
  | collProcessStop ts ev rc c rv hst =>
      rw [shouldTerminate_of_not_returnEarly hre] at hst
      simp at hst
  | collPanic ts ev rc c rv hst => simp at hd
  | mainClose d cl c rv => exact ⟨hd, rfl, hF, hD, hRFle, hRDle, hRX, hff, hdf⟩
  | mainReturn d cl c => exact ⟨hd, rfl, hF, hD, hRFle, hRDle, hRX, hff, hdf⟩
  | collFinish d c rv => exact ⟨hd, rfl, hF, hD, hRFle, hRDle, hRX, hff, hdf⟩

/-- The conservation invariant holds in every state reachable in a
`returnEarly=false` call. -/
theorem drainInv_reach (req : Request) (rootDir : String) (root : FSEntry) (σ : Sys)
    (hre : req.returnEarly = false) (h : Reach req (initSys rootDir root) σ) :
    DrainInv req root σ := by
  induction h with
  | refl => exact drainInv_init req rootDir root
  | tail hab hbc ih => exact drainInv_step req root _ _ hre ih hbc

/-- After a complete `returnEarly=false` run — every dispatcher invocation
returned and the collector's range loop ended — the shared flags and
counters hold exactly the listable per-kind totals of the tree. -/
theorem drained_core (req : Request) (rootDir : String) (root : FSEntry) (σ : Sys)
    (hre : req.returnEarly = false) (h : Reach req (initSys rootDir root) σ)
    (ht : σ.tasks = []) (hc : σ.coll = CollCtl.finished) :
    σ.core
      = ⟨decide (0 < countList (isFileEvent req) (listing root)
            + countList (isRegexFileEvent req) (listing root)),
         decide (0 < countList (isDirEvent req) (listing root)
            + countList (isRegexDirEvent req) (listing root)),
         ⟨countList (isRegexFileEvent req) (listing root)
            + countList (isRegexDirEvent req) (listing root),
          countList (isFileEvent req) (listing root),
          countList (isDirEvent req) (listing root)⟩⟩ := by
  have hinv := drainInv_reach req rootDir root σ hre h
  simp only [DrainInv, sysFuture, ht, hc, tasksFuture_nil, collFuture, Nat.add_zero,
    Nat.sub_zero] at hinv
  obtain ⟨hd, hpk, hF, hD, hRFle, hRDle, hRX, hff, hdf⟩ := hinv
  have heta : σ.core
      = ⟨σ.core.fileFound, σ.core.dirFound,
         ⟨σ.core.stats.RegexMatches, σ.core.stats.FilesFound, σ.core.stats.DirsFound⟩⟩ := rfl
  rw [heta, hF, hD, hRX, hff, hdf]

/-- C8 (amended): determinism of completed searches.  With
`returnEarly=false`, any two complete executions of the same
`searchConcurrent` request over the same unchanged tree — states reachable
in the step semantics where every dispatcher invocation has returned and
the collector has drained `resultChan` — end with identical shared state:
the same `fileFound`/`dirFound` flags and the same `SearchStats`, equal to
the exhaustive per-kind listable event counts of the tree.  (The original
claim, for every request, is refuted by the `returnEarly=true`
counterexample, where scheduling decides which events are delivered before
cancellation; and even with `returnEarly=false` the tuple the caller
receives can miss the final delivered event, because the final `return`
does not join the collector — so idempotence holds for the collector's
final state, not for the raw returned tuple.) -/
theorem same_request_runs_agree (req : Request) (rootDir : String) (root : FSEntry)
    (σ1 σ2 : Sys) (hre : req.returnEarly = false)
    (h1 : Reach req (initSys rootDir root) σ1) (ht1 : σ1.tasks = [])
    (hc1 : σ1.coll = CollCtl.finished)
    (h2 : Reach req (initSys rootDir root) σ2) (ht2 : σ2.tasks = [])
    (hc2 : σ2.coll = CollCtl.finished) :
    σ1.core = σ2.core ∧
    σ1.core.fileFound
      = decide (0 < countList (isFileEvent req) (listing root)
          + countList (isRegexFileEvent req) (listing root)) ∧
    σ1.core.dirFound
      = decide (0 < countList (isDirEvent req) (listing root)
          + countList (isRegexDirEvent req) (listing root)) ∧
    σ1.core.stats
      = ⟨countList (isRegexFileEvent req) (listing root)
          + countList (isRegexDirEvent req) (listing root),
         countList (isFileEvent req) (listing root),
         countList (isDirEvent req) (listing root)⟩ := by
  have e1 := drained_core req rootDir root σ1 hre h1 ht1 hc1
  have e2 := drained_core req rootDir root σ2 hre h2 ht2 hc2
  refine ⟨e1.trans e2.symm, ?_, ?_, ?_⟩ <;> rw [e1]

/-- Witness for `same_request_runs_agree`: one complete concrete
`returnEarly=false` run over the one-matching-file tree, used for both
executions — the final collector state has `fileFound=true` and
`FilesFound=1`. -/
theorem same_request_runs_agree_witness :
    (⟨[], false, true, .finished, ⟨true, false, ⟨0, 1, 0⟩⟩, none, false⟩ : Sys).core
        = (⟨[], false, true, .finished, ⟨true, false, ⟨0, 1, 0⟩⟩, none, false⟩ : Sys).core ∧
    (⟨[], false, true, .finished, ⟨true, false, ⟨0, 1, 0⟩⟩, none, false⟩ : Sys).core.fileFound
      = decide (0 < countList (isFileEvent ⟨"t", "", .noPattern, false, false, 2⟩)
            (listing (.dir "r" true [.file "t"]))
          + countList (isRegexFileEvent ⟨"t", "", .noPattern, false, false, 2⟩)
            (listing (.dir "r" true [.file "t"]))) ∧
    (⟨[], false, true, .finished, ⟨true, false, ⟨0, 1, 0⟩⟩, none, false⟩ : Sys).core.dirFound
      = decide (0 < countList (isDirEvent ⟨"t", "", .noPattern, false, false, 2⟩)
            (listing (.dir "r" true [.file "t"]))
          + countList (isRegexDirEvent ⟨"t", "", .noPattern, false, false, 2⟩)
            (listing (.dir "r" true [.file "t"]))) ∧
    (⟨[], false, true, .finished, ⟨true, false, ⟨0, 1, 0⟩⟩, none, false⟩ : Sys).core.stats
      = ⟨countList (isRegexFileEvent ⟨"t", "", .noPattern, false, false, 2⟩)
            (listing (.dir "r" true [.file "t"]))
          + countList (isRegexDirEvent ⟨"t", "", .noPattern, false, false, 2⟩)
            (listing (.dir "r" true [.file "t"])),
         countList (isFileEvent ⟨"t", "", .noPattern, false, false, 2⟩)
            (listing (.dir "r" true [.file "t"])),
         countList (isDirEvent ⟨"t", "", .noPattern, false, false, 2⟩)
            (listing (.dir "r" true [.file "t"]))⟩ := by
  have tr : Reach (⟨"t", "", .noPattern, false, false, 2⟩ : Request)
      (initSys "r" (.dir "r" true [.file "t"]))
      ⟨[], false, true, .finished, ⟨true, false, ⟨0, 1, 0⟩⟩, none, false⟩ := by
    apply Relation.ReflTransGen.head
      (Step.advance [] [] "r" (.file "t") [] [] false false .waiting Core.init none)
    apply Relation.ReflTransGen.head
      (Step.rendezvous [] [] ⟨join "r" "t", false, "file"⟩ none [⟨"r", []⟩] false false
        false Core.init none)
    apply Relation.ReflTransGen.head
      (Step.collProcessNoStop [⟨[⟨"r", []⟩], .top, false⟩] ⟨join "r" "t", false, "file"⟩
        false false Core.init none (by decide))
    apply Relation.ReflTransGen.head
      (Step.frameDone [] [] "r" [] false false false .waiting ⟨true, false, ⟨0, 1, 0⟩⟩ none)
    apply Relation.ReflTransGen.head
      (Step.mainClose false .waiting ⟨true, false, ⟨0, 1, 0⟩⟩ none)
    apply Relation.ReflTransGen.head
      (Step.collFinish false ⟨true, false, ⟨0, 1, 0⟩⟩ none)
    exact Relation.ReflTransGen.refl
  exact same_request_runs_agree ⟨"t", "", .noPattern, false, false, 2⟩ "r"
    (.dir "r" true [.file "t"])
    ⟨[], false, true, .finished, ⟨true, false, ⟨0, 1, 0⟩⟩, none, false⟩
    ⟨[], false, true, .finished, ⟨true, false, ⟨0, 1, 0⟩⟩, none, false⟩
    rfl tr rfl rfl tr rfl rfl

/-- Token count distributes over list append. -/
theorem tokens_append (a b : List DTask) : tokens (a ++ b) = tokens a + tokens b := by
  simp [tokens, List.filter_append]

/-- Token count of the empty task list. -/
theorem tokens_nil : tokens ([] : List DTask) = 0 := rfl

/-- Token count of a cons. -/
theorem tokens_cons (t : DTask) (ts : List DTask) :
    tokens (t :: ts) = (if t.holdsToken then 1 else 0) + tokens ts := by
  by_cases h : t.holdsToken <;> simp [tokens, List.filter_cons, h, Nat.add_comm]

/-- Popping a frame never increases the token count beyond the task list it
came from. -/
theorem tokens_afterPop (pre : List DTask) (fs : List Frame) (tok : Bool) (post : List DTask) :
    tokens (afterPop pre fs tok post)
      ≤ (tokens pre + (if tok then 1 else 0)) + tokens post := by
  cases fs <;> simp [afterPop, tokens_append, tokens_cons] <;> omega

/-- In every reachable state the number of held semaphore tokens is at most
`maxWorkers`. -/
theorem reach_tokens_le (req : Request) (rootDir : String) (root : FSEntry) (σ : Sys)
    (h : Reach req (initSys rootDir root) σ) : tokens σ.tasks ≤ req.maxWorkers := by
  induction h with
  | refl => simp [initSys, tokens]
  | tail hab hbc ih =>
      cases hbc with
      | advance pre post p e rem fs tok rc cl c rv =>
          simp only [tokens_append, tokens_cons] at ih ⊢
          omega
      | doneSkip pre post p e rem fs tok rc cl c rv =>
          have hle := tokens_afterPop pre fs tok post
          simp only [tokens_append, tokens_cons] at ih ⊢
          omega
      | frameDone pre post p fs tok d rc cl c rv =>
          have hle := tokens_afterPop pre fs tok post
          simp only [tokens_append, tokens_cons] at ih ⊢
          omega
      | rendezvous pre post ev sub fs tok d rc c rv =>
          simp only [tokens_append, tokens_cons] at ih ⊢
          omega
      | sendAbandon pre post ev sub p rem fs tok rc cl c rv =>
          have hle := tokens_afterPop pre fs tok post
          simp only [tokens_append, tokens_cons] at ih ⊢
          omega
      | spawnGo pre post p rem sub fs tok d rc cl c rv hcap =>
          simp [tokens_append, tokens_cons, tokens_nil] at hcap ⊢
          omega
      | spawnSync pre post p rem sub fs tok rc cl c rv hcap =>
          simp only [tokens_append, tokens_cons] at ih ⊢
          omega
      | spawnAbandon pre post sub p rem fs tok rc cl c rv =>
          have hle := tokens_afterPop pre fs tok post
          simp only [tokens_append, tokens_cons] at ih ⊢
          omega
      | collProcessNoStop ts ev d rc c rv hst => exact ih
      | collProcessStop ts ev rc c rv hst => exact ih
      | collPanic ts ev rc c rv hst => exact ih
      | mainClose d cl c rv => exact ih
      | mainReturn d cl c => exact ih
      | collFinish d c rv => exact ih

/-- C6: in every reachable state of a call with `maxWorkers ≥ 1`, the number
of dispatcher tasks holding a semaphore token (the tasks spawned via the
budget) never exceeds `maxWorkers`; and a task at the spawn `select` that
cannot acquire a token (budget exhausted) does not block: while `doneChan`
is open the synchronous-descent step is enabled for it. -/
theorem concurrency_budget_invariant (req : Request) (rootDir : String) (root : FSEntry)
    (σ : Sys) (hcap : 1 ≤ req.maxWorkers) (h : Reach req (initSys rootDir root) σ) :
    tokens σ.tasks ≤ req.maxWorkers ∧
    (∀ (pre post : List DTask) (p : String) (rem : List FSEntry) (sub : FSEntry)
        (fs : List Frame) (tok : Bool),
      σ.tasks = pre ++ (⟨⟨p, rem⟩ :: fs, .spawnsel sub, tok⟩ : DTask) :: post →
      σ.done = false → σ.panicked = false →
      req.maxWorkers ≤ tokens σ.tasks →
      Step req σ
        ⟨pre ++ (⟨⟨join p sub.Name, listing sub⟩ :: ⟨p, rem⟩ :: fs, .top, tok⟩ : DTask) :: post,
         σ.done, σ.resClosed, σ.coll, σ.core, σ.rv, σ.panicked⟩) := by
  refine ⟨reach_tokens_le req rootDir root σ h, ?_⟩
  intro pre post p rem sub fs tok hts hd hpk hfull
  obtain ⟨ts, d, rc, cl, c, rv, pk⟩ := σ
  simp only at hts hd hpk hfull ⊢
  subst hts hd hpk
  exact Step.spawnSync pre post p rem sub fs tok rc cl c rv hfull

/-- C7: an execution of `searchConcurrent` in which the final `return` runs
while the collector still holds the last received event unprocessed: the
tree has exactly one matching file, the event is handed over at the
rendezvous (which unblocks the sender), the lone dispatcher task finishes,
`wg.Wait` returns, `resultChan` is closed and the call returns — with
`fileFound = false` and `FilesFound = 0` even though one match exists and
was delivered.  Nothing synchronises the final `return` with the collector
finishing its switch body. -/
theorem return_before_collector_drains :
    Reach ⟨"t", "", .noPattern, false, false, 2⟩
      (initSys "r" (.dir "r" true [.file "t"]))
      ⟨[], false, true, .has ⟨join "r" "t", false, "file"⟩, Core.init,
        some (false, false, ⟨0, 0, 0⟩), false⟩ ∧
    countAllList (fileCrit ⟨"t", "", .noPattern, false, false, 2⟩)
      (rootEntries (.dir "r" true [.file "t"])) = 1 := by
  constructor
  · exact Relation.ReflTransGen.head
      (Step.advance [] [] "r" (.file "t") [] [] false false .waiting Core.init none)
      (Relation.ReflTransGen.head
        (Step.rendezvous [] [] ⟨join "r" "t", false, "file"⟩ none [⟨"r", []⟩] false false false
          Core.init none)
        (Relation.ReflTransGen.head
          (Step.frameDone [] [] "r" [] false false false (.has ⟨join "r" "t", false, "file"⟩)
            Core.init none)
          (Relation.ReflTransGen.head
            (Step.mainClose false (.has ⟨join "r" "t", false, "file"⟩) Core.init none)
            (Relation.ReflTransGen.head
              (Step.mainReturn false (.has ⟨join "r" "t", false, "file"⟩) Core.init)
              Relation.ReflTransGen.refl))))
  · simp [countAllList.eq_def, rootEntries, listing, fileCrit, FSEntry.Name, FSEntry.isDir]

/-- C5: an execution reaching the `close(doneChan)` panic: regex-only
request with returnEarly=true over two subtrees, both spawned tasks get
blocked emitting their match; the collector consumes the first event and
closes `doneChan`; the second sender's `select` may still pick the send case
(both cases are ready), the collector consumes the second event, the stop
condition holds again and `close(doneChan)` is executed on the already
closed channel — a runtime panic, not a harmless no-op. -/
theorem double_close_panic :
    Reach ⟨"", "", .valid (fun s => s == "x.txt" || s == "y.txt"), true, false, 2⟩
      (initSys "r" (.dir "r" true
        [.dir "b" true [.file "x.txt"], .dir "c" true [.file "y.txt"]]))
      ⟨[⟨[⟨join "r" "b", []⟩], .top, true⟩, ⟨[⟨join "r" "c", []⟩], .top, true⟩],
       true, false, .has ⟨join (join "r" "c") "y.txt", false, "regex"⟩,
       ⟨true, false, ⟨2, 0, 0⟩⟩, none, true⟩ := by
  exact Relation.ReflTransGen.head
    (Step.advance [] [] "r" (.dir "b" true [.file "x.txt"])
      [.dir "c" true [.file "y.txt"]] [] false false .waiting Core.init none)
    (Relation.ReflTransGen.head
      (Step.spawnGo [] [] "r" [.dir "c" true [.file "y.txt"]] (.dir "b" true [.file "x.txt"])
        [] false false false .waiting Core.init none (by decide))
      (Relation.ReflTransGen.head
        (Step.advance [] [⟨[⟨join "r" "b", [.file "x.txt"]⟩], .top, true⟩] "r"
          (.dir "c" true [.file "y.txt"]) [] [] false false .waiting Core.init none)
        (Relation.ReflTransGen.head
          (Step.spawnGo [] [⟨[⟨join "r" "b", [.file "x.txt"]⟩], .top, true⟩] "r" []
            (.dir "c" true [.file "y.txt"]) [] false false false .waiting Core.init none
            (by decide))
          (Relation.ReflTransGen.head
            (Step.frameDone []
              [⟨[⟨join "r" "b", [.file "x.txt"]⟩], .top, true⟩,
               ⟨[⟨join "r" "c", [.file "y.txt"]⟩], .top, true⟩] "r" [] false false false
              .waiting Core.init none)
            (Relation.ReflTransGen.head
              (Step.advance [] [⟨[⟨join "r" "c", [.file "y.txt"]⟩], .top, true⟩]
                (join "r" "b") (.file "x.txt") [] [] true false .waiting Core.init none)
              (Relation.ReflTransGen.head
                (Step.advance [⟨[⟨join "r" "b", []⟩],
                    .sending ⟨join (join "r" "b") "x.txt", false, "regex"⟩ none, true⟩] []
                  (join "r" "c") (.file "y.txt") [] [] true false .waiting Core.init none)
                (Relation.ReflTransGen.head
                  (Step.rendezvous []
                    [⟨[⟨join "r" "c", []⟩],
                      .sending ⟨join (join "r" "c") "y.txt", false, "regex"⟩ none, true⟩]
                    ⟨join (join "r" "b") "x.txt", false, "regex"⟩ none [⟨join "r" "b", []⟩]
                    true false false Core.init none)
                  (Relation.ReflTransGen.head
                    (Step.collProcessStop
                      [⟨[⟨join "r" "b", []⟩], .top, true⟩,
                       ⟨[⟨join "r" "c", []⟩],
                        .sending ⟨join (join "r" "c") "y.txt", false, "regex"⟩ none, true⟩]
                      ⟨join (join "r" "b") "x.txt", false, "regex"⟩ false Core.init none
                      (by decide))
                    (Relation.ReflTransGen.head
                      (Step.rendezvous [⟨[⟨join "r" "b", []⟩], .top, true⟩] []
                        ⟨join (join "r" "c") "y.txt", false, "regex"⟩ none [⟨join "r" "c", []⟩]
                        true true false ⟨true, false, ⟨1, 0, 0⟩⟩ none)
                      (Relation.ReflTransGen.head
                        (Step.collPanic
                          [⟨[⟨join "r" "b", []⟩], .top, true⟩,
                           ⟨[⟨join "r" "c", []⟩], .top, true⟩]
                          ⟨join (join "r" "c") "y.txt", false, "regex"⟩ false
                          ⟨true, false, ⟨1, 0, 0⟩⟩ none (by decide))
                        Relation.ReflTransGen.refl))))))))))

/-- C8 counterexample: two legal executions of the same request
(fileName="f", dirName="d", returnEarly=true) over the same unchanged tree
return different SearchStats.  In the first run both file events are
consumed before the directory event triggers the stop condition
(FilesFound=2); in the second run the directory event is consumed first and
the second file sender observes the closed `doneChan` and abandons its
event (FilesFound=1). -/
theorem same_request_two_runs_different_stats :
    Reach ⟨"f", "d", .noPattern, true, false, 2⟩
      (initSys "r" (.dir "r" true [.dir "b" true [.file "f"], .dir "c" true [.file "f"],
        .dir "d" true []]))
      ⟨[], true, true, .waiting, ⟨true, true, ⟨0, 2, 1⟩⟩,
        some (true, true, ⟨0, 2, 1⟩), false⟩ ∧
    Reach ⟨"f", "d", .noPattern, true, false, 2⟩
      (initSys "r" (.dir "r" true [.dir "b" true [.file "f"], .dir "c" true [.file "f"],
        .dir "d" true []]))
      ⟨[], true, true, .waiting, ⟨true, true, ⟨0, 1, 1⟩⟩,
        some (true, true, ⟨0, 1, 1⟩), false⟩ ∧
    some ((true, true, (⟨0, 2, 1⟩ : SearchStats)))
      ≠ some ((true, true, (⟨0, 1, 1⟩ : SearchStats))) := by
  refine ⟨?_, ?_, by decide⟩
  ·
    apply Relation.ReflTransGen.head (Step.advance [] [] "r" (.dir "b" true [.file "f"]) [.dir "c" true [.file "f"], .dir "d" true []] [] false false .waiting Core.init none)
    apply Relation.ReflTransGen.head (Step.spawnGo [] [] "r" [.dir "c" true [.file "f"], .dir "d" true []] (.dir "b" true [.file "f"]) [] false false false .waiting Core.init none (by decide))
    apply Relation.ReflTransGen.head (Step.advance [] [⟨[⟨join "r" "b", [.file "f"]⟩], .top, true⟩] "r" (.dir "c" true [.file "f"]) [.dir "d" true []] [] false false .waiting Core.init none)
    apply Relation.ReflTransGen.head (Step.spawnGo [] [⟨[⟨join "r" "b", [.file "f"]⟩], .top, true⟩] "r" [.dir "d" true []] (.dir "c" true [.file "f"]) [] false false false .waiting Core.init none (by decide))
    apply Relation.ReflTransGen.head (Step.advance [] [⟨[⟨join "r" "b", [.file "f"]⟩], .top, true⟩, ⟨[⟨join "r" "c", [.file "f"]⟩], .top, true⟩] "r" (.dir "d" true []) [] [] false false .waiting Core.init none)
    apply Relation.ReflTransGen.head (Step.advance [⟨[⟨"r", []⟩], .sending ⟨join "r" "d", true, "dir"⟩ (some (.dir "d" true [])), false⟩] [⟨[⟨join "r" "c", [.file "f"]⟩], .top, true⟩] (join "r" "b") (.file "f") [] [] true false .waiting Core.init none)
    apply Relation.ReflTransGen.head (Step.rendezvous [⟨[⟨"r", []⟩], .sending ⟨join "r" "d", true, "dir"⟩ (some (.dir "d" true [])), false⟩] [⟨[⟨join "r" "c", [.file "f"]⟩], .top, true⟩] ⟨join (join "r" "b") "f", false, "file"⟩ none [⟨join "r" "b", []⟩] true false false Core.init none)
    apply Relation.ReflTransGen.head (Step.collProcessNoStop [⟨[⟨"r", []⟩], .sending ⟨join "r" "d", true, "dir"⟩ (some (.dir "d" true [])), false⟩, ⟨[⟨join "r" "b", []⟩], .top, true⟩, ⟨[⟨join "r" "c", [.file "f"]⟩], .top, true⟩] ⟨join (join "r" "b") "f", false, "file"⟩ false false Core.init none (by decide))
    apply Relation.ReflTransGen.head (Step.advance [⟨[⟨"r", []⟩], .sending ⟨join "r" "d", true, "dir"⟩ (some (.dir "d" true [])), false⟩, ⟨[⟨join "r" "b", []⟩], .top, true⟩] [] (join "r" "c") (.file "f") [] [] true false .waiting ⟨true, false, ⟨0, 1, 0⟩⟩ none)
    apply Relation.ReflTransGen.head (Step.rendezvous [⟨[⟨"r", []⟩], .sending ⟨join "r" "d", true, "dir"⟩ (some (.dir "d" true [])), false⟩, ⟨[⟨join "r" "b", []⟩], .top, true⟩] [] ⟨join (join "r" "c") "f", false, "file"⟩ none [⟨join "r" "c", []⟩] true false false ⟨true, false, ⟨0, 1, 0⟩⟩ none)
    apply Relation.ReflTransGen.head (Step.collProcessNoStop [⟨[⟨"r", []⟩], .sending ⟨join "r" "d", true, "dir"⟩ (some (.dir "d" true [])), false⟩, ⟨[⟨join "r" "b", []⟩], .top, true⟩, ⟨[⟨join "r" "c", []⟩], .top, true⟩] ⟨join (join "r" "c") "f", false, "file"⟩ false false ⟨true, false, ⟨0, 1, 0⟩⟩ none (by decide))
    apply Relation.ReflTransGen.head (Step.rendezvous [] [⟨[⟨join "r" "b", []⟩], .top, true⟩, ⟨[⟨join "r" "c", []⟩], .top, true⟩] ⟨join "r" "d", true, "dir"⟩ (some (.dir "d" true [])) [⟨"r", []⟩] false false false ⟨true, false, ⟨0, 2, 0⟩⟩ none)
    apply Relation.ReflTransGen.head (Step.collProcessStop [⟨[⟨"r", []⟩], .spawnsel (.dir "d" true []), false⟩, ⟨[⟨join "r" "b", []⟩], .top, true⟩, ⟨[⟨join "r" "c", []⟩], .top, true⟩] ⟨join "r" "d", true, "dir"⟩ false ⟨true, false, ⟨0, 2, 0⟩⟩ none (by decide))
    apply Relation.ReflTransGen.head (Step.spawnAbandon [] [⟨[⟨join "r" "b", []⟩], .top, true⟩, ⟨[⟨join "r" "c", []⟩], .top, true⟩] (.dir "d" true []) "r" [] [] false false .waiting ⟨true, true, ⟨0, 2, 1⟩⟩ none)
    apply Relation.ReflTransGen.head (Step.frameDone [] [⟨[⟨join "r" "c", []⟩], .top, true⟩] (join "r" "b") [] true true false .waiting ⟨true, true, ⟨0, 2, 1⟩⟩ none)
    apply Relation.ReflTransGen.head (Step.frameDone [] [] (join "r" "c") [] true true false .waiting ⟨true, true, ⟨0, 2, 1⟩⟩ none)
    apply Relation.ReflTransGen.head (Step.mainClose true .waiting ⟨true, true, ⟨0, 2, 1⟩⟩ none)
    apply Relation.ReflTransGen.head (Step.mainReturn true .waiting ⟨true, true, ⟨0, 2, 1⟩⟩)
    exact Relation.ReflTransGen.refl
  ·
    apply Relation.ReflTransGen.head (Step.advance [] [] "r" (.dir "b" true [.file "f"]) [.dir "c" true [.file "f"], .dir "d" true []] [] false false .waiting Core.init none)
    apply Relation.ReflTransGen.head (Step.spawnGo [] [] "r" [.dir "c" true [.file "f"], .dir "d" true []] (.dir "b" true [.file "f"]) [] false false false .waiting Core.init none (by decide))
    apply Relation.ReflTransGen.head (Step.advance [] [⟨[⟨join "r" "b", [.file "f"]⟩], .top, true⟩] "r" (.dir "c" true [.file "f"]) [.dir "d" true []] [] false false .waiting Core.init none)
    apply Relation.ReflTransGen.head (Step.spawnGo [] [⟨[⟨join "r" "b", [.file "f"]⟩], .top, true⟩] "r" [.dir "d" true []] (.dir "c" true [.file "f"]) [] false false false .waiting Core.init none (by decide))
    apply Relation.ReflTransGen.head (Step.advance [] [⟨[⟨join "r" "b", [.file "f"]⟩], .top, true⟩, ⟨[⟨join "r" "c", [.file "f"]⟩], .top, true⟩] "r" (.dir "d" true []) [] [] false false .waiting Core.init none)
    apply Relation.ReflTransGen.head (Step.advance [⟨[⟨"r", []⟩], .sending ⟨join "r" "d", true, "dir"⟩ (some (.dir "d" true [])), false⟩] [⟨[⟨join "r" "c", [.file "f"]⟩], .top, true⟩] (join "r" "b") (.file "f") [] [] true false .waiting Core.init none)
    apply Relation.ReflTransGen.head (Step.advance [⟨[⟨"r", []⟩], .sending ⟨join "r" "d", true, "dir"⟩ (some (.dir "d" true [])), false⟩, ⟨[⟨join "r" "b", []⟩], .sending ⟨join (join "r" "b") "f", false, "file"⟩ none, true⟩] [] (join "r" "c") (.file "f") [] [] true false .waiting Core.init none)
    apply Relation.ReflTransGen.head (Step.rendezvous [] [⟨[⟨join "r" "b", []⟩], .sending ⟨join (join "r" "b") "f", false, "file"⟩ none, true⟩, ⟨[⟨join "r" "c", []⟩], .sending ⟨join (join "r" "c") "f", false, "file"⟩ none, true⟩] ⟨join "r" "d", true, "dir"⟩ (some (.dir "d" true [])) [⟨"r", []⟩] false false false Core.init none)
    apply Relation.ReflTransGen.head (Step.collProcessNoStop [⟨[⟨"r", []⟩], .spawnsel (.dir "d" true []), false⟩, ⟨[⟨join "r" "b", []⟩], .sending ⟨join (join "r" "b") "f", false, "file"⟩ none, true⟩, ⟨[⟨join "r" "c", []⟩], .sending ⟨join (join "r" "c") "f", false, "file"⟩ none, true⟩] ⟨join "r" "d", true, "dir"⟩ false false Core.init none (by decide))
    apply Relation.ReflTransGen.head (Step.rendezvous [⟨[⟨"r", []⟩], .spawnsel (.dir "d" true []), false⟩] [⟨[⟨join "r" "c", []⟩], .sending ⟨join (join "r" "c") "f", false, "file"⟩ none, true⟩] ⟨join (join "r" "b") "f", false, "file"⟩ none [⟨join "r" "b", []⟩] true false false ⟨false, true, ⟨0, 0, 1⟩⟩ none)
    apply Relation.ReflTransGen.head (Step.collProcessStop [⟨[⟨"r", []⟩], .spawnsel (.dir "d" true []), false⟩, ⟨[⟨join "r" "b", []⟩], .top, true⟩, ⟨[⟨join "r" "c", []⟩], .sending ⟨join (join "r" "c") "f", false, "file"⟩ none, true⟩] ⟨join (join "r" "b") "f", false, "file"⟩ false ⟨false, true, ⟨0, 0, 1⟩⟩ none (by decide))
    apply Relation.ReflTransGen.head (Step.sendAbandon [⟨[⟨"r", []⟩], .spawnsel (.dir "d" true []), false⟩, ⟨[⟨join "r" "b", []⟩], .top, true⟩] [] ⟨join (join "r" "c") "f", false, "file"⟩ none (join "r" "c") [] [] true false .waiting ⟨true, true, ⟨0, 1, 1⟩⟩ none)
    apply Relation.ReflTransGen.head (Step.spawnAbandon [] [⟨[⟨join "r" "b", []⟩], .top, true⟩] (.dir "d" true []) "r" [] [] false false .waiting ⟨true, true, ⟨0, 1, 1⟩⟩ none)
    apply Relation.ReflTransGen.head (Step.frameDone [] [] (join "r" "b") [] true true false .waiting ⟨true, true, ⟨0, 1, 1⟩⟩ none)
    apply Relation.ReflTransGen.head (Step.mainClose true .waiting ⟨true, true, ⟨0, 1, 1⟩⟩ none)
    apply Relation.ReflTransGen.head (Step.mainReturn true .waiting ⟨true, true, ⟨0, 1, 1⟩⟩)
    exact Relation.ReflTransGen.refl

/-- Witness for `entry_event_precedence` at a concrete entry satisfying both
the regex and the exact file-name kind: the single event is tagged "file"
and counts once. -/
theorem entry_event_precedence_witness :
    ((classify ⟨"a.txt", "", .valid (fun s => s == "a.txt"), false, false, 1⟩ "r" (.file "a.txt")
        = if fileCrit ⟨"a.txt", "", .valid (fun s => s == "a.txt"), false, false, 1⟩
              (.file "a.txt") then
            some ⟨join "r" (FSEntry.Name (.file "a.txt")), FSEntry.isDir (.file "a.txt"), "file"⟩
          else if dirCrit ⟨"a.txt", "", .valid (fun s => s == "a.txt"), false, false, 1⟩
              (.file "a.txt") then
            some ⟨join "r" (FSEntry.Name (.file "a.txt")), FSEntry.isDir (.file "a.txt"), "dir"⟩
          else if rxCrit ⟨"a.txt", "", .valid (fun s => s == "a.txt"), false, false, 1⟩
              (.file "a.txt") then
            some ⟨join "r" (FSEntry.Name (.file "a.txt")), FSEntry.isDir (.file "a.txt"), "regex"⟩
          else none) ∧
     (∀ ev c, classify ⟨"a.txt", "", .valid (fun s => s == "a.txt"), false, false, 1⟩ "r"
          (.file "a.txt") = some ev →
        (applyEvent ev c).stats.RegexMatches + (applyEvent ev c).stats.FilesFound
            + (applyEvent ev c).stats.DirsFound
          = (c.stats.RegexMatches + c.stats.FilesFound + c.stats.DirsFound) + 1)) ∧
    (applyEvent ⟨join "r" "a.txt", false, "file"⟩ Core.init).stats.RegexMatches
        + (applyEvent ⟨join "r" "a.txt", false, "file"⟩ Core.init).stats.FilesFound
        + (applyEvent ⟨join "r" "a.txt", false, "file"⟩ Core.init).stats.DirsFound
      = (Core.init.stats.RegexMatches + Core.init.stats.FilesFound
          + Core.init.stats.DirsFound) + 1 :=
  ⟨entry_event_precedence ⟨"a.txt", "", .valid (fun s => s == "a.txt"), false, false, 1⟩ "r"
      (.file "a.txt"),
   (entry_event_precedence ⟨"a.txt", "", .valid (fun s => s == "a.txt"), false, false, 1⟩ "r"
      (.file "a.txt")).2 ⟨join "r" "a.txt", false, "file"⟩ Core.init rfl⟩

/-- Witness for `concurrency_budget_invariant` at the initial state of a
concrete call with maxWorkers = 1. -/
theorem concurrency_budget_invariant_witness :
    tokens (initSys "r" (FSEntry.dir "r" true [])).tasks
        ≤ (⟨"x", "", .noPattern, false, false, 1⟩ : Request).maxWorkers ∧
    (∀ (pre post : List DTask) (p : String) (rem : List FSEntry) (sub : FSEntry)
        (fs : List Frame) (tok : Bool),
      (initSys "r" (FSEntry.dir "r" true [])).tasks
          = pre ++ (⟨⟨p, rem⟩ :: fs, .spawnsel sub, tok⟩ : DTask) :: post →
      (initSys "r" (FSEntry.dir "r" true [])).done = false →
      (initSys "r" (FSEntry.dir "r" true [])).panicked = false →
      (⟨"x", "", .noPattern, false, false, 1⟩ : Request).maxWorkers
          ≤ tokens (initSys "r" (FSEntry.dir "r" true [])).tasks →
      Step ⟨"x", "", .noPattern, false, false, 1⟩ (initSys "r" (FSEntry.dir "r" true []))
        ⟨pre ++ (⟨⟨join p sub.Name, listing sub⟩ :: ⟨p, rem⟩ :: fs, .top, tok⟩ : DTask) :: post,
         (initSys "r" (FSEntry.dir "r" true [])).done,
         (initSys "r" (FSEntry.dir "r" true [])).resClosed,
         (initSys "r" (FSEntry.dir "r" true [])).coll,
         (initSys "r" (FSEntry.dir "r" true [])).core,
         (initSys "r" (FSEntry.dir "r" true [])).rv,
         (initSys "r" (FSEntry.dir "r" true [])).panicked⟩) :=
  concurrency_budget_invariant ⟨"x", "", .noPattern, false, false, 1⟩ "r"
    (FSEntry.dir "r" true []) (initSys "r" (FSEntry.dir "r" true [])) (by decide)
    Relation.ReflTransGen.refl
